import Mathlib

/-!
# update-repos: batch updater of git checkouts

A shallow embedding of `cmd/update-repos/main.go`.

The program talks to the outside world through `os.Chdir`, `os.ReadDir`,
`os.Stat`, `time.Now` and `exec.Command("git", ...)`.  These are modelled as an
oracle `Env W` over an arbitrary world type `W`: every call receives the
current world and returns its answer together with the next world, so an
oracle can answer differently each time it is asked.  The Go functions are
translated one to one over an explicit state `St W`.

* Go `error` is `Option String` (`none` is `nil`).
* `*slog.Logger` is the list of records written through it.
* `St.calls` is the list of git processes started so far, with their results;
  it records the external effect of `cmd.Run` / `cmd.Output` and is never read
  by the program.
* `LoopState.history` lists the calls of `updateRepo` made by `Run` with what
  each returned and logged, and `RunResult.summary` says whether the summary
  line was reached; like `St.calls` they are never read by the program.
* The counters `processed` and `successful` are `Nat`; Go's `int` is 64 bit
  and the counters are bounded by the length of a directory listing.
* `filepath.Base`, `strings.TrimSpace` and `os.IsNotExist` are modelled;
  `filepath.Join` is left to the oracle.  Strings are sequences of
  characters.
-/

namespace UpdateRepos

/-! ## Data model -/

/-- Go `error`: `none` is `nil`, `some msg` is an error with that message. -/
abbrev Error := Option String

/-- Severity of a log line (`Info`, `Warn`, `Error` of `log/slog`). -/
inductive Level where
  | info
  | warn
  | error
  deriving DecidableEq, Repr

/-- Value of a structured log attribute. -/
inductive LogValue where
  | str (s : String)
  | int (n : Int)
  | strs (l : List String)
  deriving DecidableEq, Repr

/-- One structured log line: severity, message, key/value attributes. -/
structure LogRecord where
  level : Level
  msg : String
  attrs : List (String × LogValue)
  deriving DecidableEq, Repr

/-- The struct `RepoUpdater` (main.go:29-34). -/
structure RepoUpdater where
  version : String
  logger : List LogRecord
  failedRepos : List String
  baseDir : String
  deriving DecidableEq, Repr

/-- Go `NewRepoUpdater` (main.go:36-43): no failures recorded, nothing logged. -/
def NewRepoUpdater (version baseDir : String) : RepoUpdater :=
  { version := version, logger := [], failedRepos := [], baseDir := baseDir }

/-- What `os.Stat` reported, as far as `os.IsNotExist` distinguishes it. -/
inductive StatResult where
  | ok
  | notExist
  | otherError
  deriving DecidableEq, Repr

/-- Go `os.IsNotExist(err)` for the error of an `os.Stat` call. -/
def IsNotExist : StatResult → Bool
  | .notExist => true
  | _ => false

/-- Result of one git process: its standard output and its exit error. -/
structure GitResult where
  output : String
  err : Error
  deriving DecidableEq, Repr

/-- One entry of a directory listing (`os.DirEntry`): `Name()` and `IsDir()`. -/
structure DirEntry where
  name : String
  isDir : Bool
  deriving DecidableEq, Repr

/-- The operating system and the git tool, as seen by the program. -/
structure Env (W : Type) where
  /-- Run `git args...` with working directory `dir`. -/
  git : W → String → List String → W × GitResult
  /-- The outcome of `os.Stat path`. -/
  stat : W → String → StatResult
  /-- The call `os.Chdir path`. -/
  chdir : W → String → W × Error
  /-- The call `os.ReadDir(".")`. -/
  readDir : W → List DirEntry × Error
  /-- The text `time.Now().Format("2006-01-02 15:04:05")`. -/
  now : W → String
  /-- The library function `filepath.Join` on two elements. -/
  joinPath : String → String → String

/-- One git process that was started: directory, arguments and its result. -/
structure GitCall where
  dir : String
  args : List String
  output : String
  err : Error
  deriving DecidableEq, Repr

/-- Program state: the updater, the outside world and the git processes run. -/
structure St (W : Type) where
  r : RepoUpdater
  w : W
  calls : List GitCall

/-! ## Library functions -/

/-- Unix `filepath.Base`: the last element of a path, trailing slashes
removed; `"."` for the empty path and `"/"` for a path of slashes only. -/
def Base (path : String) : String :=
  if path = "" then "."
  else
    let stripped := path.data.reverse.dropWhile (fun c => c == '/')
    let last := (stripped.takeWhile (fun c => c != '/')).reverse
    if last = [] then "/" else String.mk last

/-- Go `unicode.IsSpace`. -/
def isSpace (c : Char) : Bool :=
  let n := c.toNat
  (9 ≤ n && n ≤ 13) || n == 32 || n == 0x85 || n == 0xA0 || n == 0x1680 ||
    (0x2000 ≤ n && n ≤ 0x200a) || n == 0x2028 || n == 0x2029 || n == 0x202f ||
    n == 0x205f || n == 0x3000

/-- Go `strings.TrimSpace`: leading and trailing white space removed. -/
def TrimSpace (s : String) : String :=
  String.mk ((s.data.dropWhile isSpace).reverse.dropWhile isSpace).reverse

/-! ## The program -/

variable {W : Type}

/-- Write one record through `r.logger`. -/
def logTo (s : St W) (level : Level) (msg : String)
    (attrs : List (String × LogValue)) : St W :=
  { s with r := { s.r with logger := s.r.logger ++ [⟨level, msg, attrs⟩] } }

/-- The statement `r.failedRepos = append(r.failedRepos, entry)`. -/
def addFailure (s : St W) (entry : String) : St W :=
  { s with r := { s.r with failedRepos := s.r.failedRepos ++ [entry] } }

/-- Go `runGitCommand` (main.go:45-50): run git in `dir`, return only the error. -/
def runGitCommand (env : Env W) (s : St W) (dir : String) (args : List String) :
    St W × Error :=
  let res := env.git s.w dir args
  ({ s with w := res.1, calls := s.calls ++ [⟨dir, args, res.2.output, res.2.err⟩] },
    res.2.err)

/-- Go `runGitCommandWithOutput` (main.go:52-58): run git in `dir`, return the
trimmed standard output and the error. -/
def runGitCommandWithOutput (env : Env W) (s : St W) (dir : String)
    (args : List String) : St W × String × Error :=
  let res := env.git s.w dir args
  ({ s with w := res.1, calls := s.calls ++ [⟨dir, args, res.2.output, res.2.err⟩] },
    TrimSpace res.2.output, res.2.err)

/-- Go `gitStatusHasChanges` (main.go:60-67). -/
def gitStatusHasChanges (env : Env W) (s : St W) (dir : String) :
    St W × Bool × Error :=
  let res := runGitCommandWithOutput env s dir ["status", "--porcelain"]
  if res.2.2 ≠ none then (res.1, false, res.2.2)
  else (res.1, decide (res.2.1.length > 0), none)

/-- Go `updateRepo` (main.go:69-136).  Each `let x := call; if x.2 ≠ none` is one
`if err := call; err != nil` of the source. -/
def updateRepo (env : Env W) (s : St W) (repoDir : String) : St W × Error :=
  let repoName := Base repoDir
  let s := logTo s .info "Processing repository" [("name", .str repoName)]
  if IsNotExist (env.stat s.w (env.joinPath repoDir ".git")) = true then
    (logTo s .info "SKIP: not a git repository" [("name", .str repoName)], none)
  else
  let head := runGitCommand env s repoDir ["rev-parse", "--verify", "HEAD"]
  if head.2 ≠ none then
    (logTo head.1 .info "SKIP: has no commits" [("name", .str repoName)], none)
  else
  let cur := runGitCommandWithOutput env head.1 repoDir ["branch", "--show-current"]
  let s := if cur.2.2 ≠ none ∨ cur.2.1 = "" then
      logTo cur.1 .warn "in detached HEAD state" [("name", .str repoName)]
    else cur.1
  let status := gitStatusHasChanges env s repoDir
  if status.2.2 ≠ none then
    let s := logTo status.1 .error "Failed to check status" [("name", .str repoName)]
    let s := addFailure s (repoName ++ ": Failed to check status")
    (s, some "failed to check status")
  else
  let stashed : St W × Error :=
    if status.2.1 = true then
      let s := logTo status.1 .warn "has uncommitted changes - stashing"
        [("name", .str repoName)]
      let stashMsg := "Auto-stash before update " ++ env.now s.w
      runGitCommand env s repoDir ["stash", "push", "-m", stashMsg]
    else (status.1, none)
  if stashed.2 ≠ none then
    let s := logTo stashed.1 .error "Failed to stash changes" [("name", .str repoName)]
    let s := addFailure s (repoName ++ ": Failed to stash changes")
    (s, some "failed to stash changes")
  else
  let fetched := runGitCommand env stashed.1 repoDir ["fetch", "origin"]
  if fetched.2 ≠ none then
    let s := logTo fetched.1 .error "Failed to fetch from origin" [("name", .str repoName)]
    let s := addFailure s (repoName ++ ": Failed to fetch")
    (s, some "failed to fetch")
  else
  let onMain := runGitCommand env fetched.1 repoDir ["rev-parse", "--verify", "origin/main"]
  let resolved : St W × Option String :=
    if onMain.2 = none then (onMain.1, some "main")
    else
      let onMaster := runGitCommand env onMain.1 repoDir
        ["rev-parse", "--verify", "origin/master"]
      if onMaster.2 = none then (onMaster.1, some "master")
      else (onMaster.1, none)
  match resolved with
  | (s, none) =>
    let s := logTo s .error "Neither main nor master branch exists on origin"
      [("name", .str repoName)]
    let s := addFailure s (repoName ++ ": No main/master branch")
    (s, some "no main/master branch")
  | (s, some mainBranch) =>
  let checkedOut := runGitCommand env s repoDir ["checkout", mainBranch]
  if checkedOut.2 ≠ none then
    let s := logTo checkedOut.1 .error "Failed to checkout branch"
      [("name", .str repoName), ("branch", .str mainBranch)]
    let s := addFailure s (repoName ++ ": Failed to checkout " ++ mainBranch)
    (s, some ("failed to checkout " ++ mainBranch))
  else
  let pulled := runGitCommand env checkedOut.1 repoDir ["pull", "origin", mainBranch]
  if pulled.2 ≠ none then
    let s := logTo pulled.1 .error "Failed to pull latest changes" [("name", .str repoName)]
    let s := addFailure s (repoName ++ ": Failed to pull")
    (s, some "failed to pull")
  else
    (logTo pulled.1 .info "Successfully updated repository"
      [("name", .str repoName), ("branch", .str mainBranch)], none)

/-- One call of `updateRepo` made by `Run`: the entry name passed, the error
returned and the log lines written during the call. -/
structure Invocation where
  name : String
  err : Error
  logs : List LogRecord
  deriving DecidableEq, Repr

/-- The variables of `Run` while it iterates (main.go:152-165), with the list
of `updateRepo` calls made so far. -/
structure LoopState (W : Type) where
  s : St W
  processed : Nat
  successful : Nat
  history : List Invocation

/-- The `for _, entry := range entries` loop of `Run` (main.go:154-165).  The
second component is the error of an early `return` from inside the loop. -/
def runLoop (env : Env W) (ls : LoopState W) : List DirEntry → LoopState W × Error
  | [] => (ls, none)
  | entry :: rest =>
    if entry.isDir then
      let processed := ls.processed + 1
      let res := updateRepo env ls.s entry.name
      let successful := if res.2 = none then ls.successful + 1 else ls.successful
      let history := ls.history ++
        [⟨entry.name, res.2, res.1.r.logger.drop ls.s.r.logger.length⟩]
      let cd := env.chdir res.1.w res.1.r.baseDir
      let s : St W := { res.1 with w := cd.1 }
      match cd.2 with
      | some _ =>
        (⟨logTo s .error "Cannot return to base directory"
            [("baseDir", .str s.r.baseDir)], processed, successful, history⟩,
          some "cannot return to base directory")
      | none => runLoop env ⟨s, processed, successful, history⟩ rest
    else runLoop env ls rest

/-- What `Run` leaves behind: the final state, the counters, the calls of
`updateRepo` it made, whether the summary was written, and the returned error. -/
structure RunResult (W : Type) where
  s : St W
  processed : Nat
  successful : Nat
  history : List Invocation
  summary : Bool
  err : Error

/-- Go `Run` (main.go:138-177). -/
def Run (env : Env W) (s : St W) : RunResult W :=
  let s := logTo s .info "Starting repository update process"
    [("baseDir", .str s.r.baseDir)]
  let cd := env.chdir s.w s.r.baseDir
  let s : St W := { s with w := cd.1 }
  match cd.2 with
  | some _ =>
    ⟨logTo s .error "Cannot access base directory" [("baseDir", .str s.r.baseDir)],
      0, 0, [], false, some ("cannot access base directory " ++ s.r.baseDir)⟩
  | none =>
  match env.readDir s.w with
  | (_, some _) =>
    ⟨logTo s .error "Cannot read directory contents" [],
      0, 0, [], false, some "cannot read directory contents"⟩
  | (entries, none) =>
  match runLoop env ⟨s, 0, 0, []⟩ entries with
  | (ls, some e) => ⟨ls.s, ls.processed, ls.successful, ls.history, false, some e⟩
  | (ls, none) =>
    let s := logTo ls.s .info "=== SUMMARY ===" []
    let s := logTo s .info "Repository update summary"
      [("processed", .int ls.processed), ("successful", .int ls.successful),
        ("failed", .int ((ls.processed : Int) - (ls.successful : Int)))]
    if s.r.failedRepos.length > 0 then
      ⟨logTo s .error "Failed repositories" [("failures", .strs s.r.failedRepos)],
        ls.processed, ls.successful, ls.history, true,
        some "some repositories failed to update"⟩
    else
      ⟨logTo s .info "All repositories updated successfully!" [],
        ls.processed, ls.successful, ls.history, true, none⟩

/-! ## Vocabulary of the specification -/

/-- The outcome of one directory (`Skipped`, `Succeeded`, `Failed`).  The
program has no such type: `updateRepo` returns an error or `nil`, and says in
its log whether a `nil` was a skip. -/
inductive Outcome where
  | Skipped (reason : String)
  | Succeeded (branch : String)
  | Failed (reason : String)
  deriving DecidableEq, Repr

/-- The value of the attribute `branch` of a log line (`""` when absent). -/
def branchAttr (rec : LogRecord) : String :=
  match rec.attrs.lookup "branch" with
  | some (.str b) => b
  | _ => ""

/-- Classify one call of `updateRepo`: an error is `Failed`; a `nil` whose last
log line is one of the two `SKIP:` lines is `Skipped`; any other `nil` is
`Succeeded`. -/
def Invocation.outcome (inv : Invocation) : Outcome :=
  match inv.err with
  | some reason => .Failed reason
  | none =>
    match inv.logs.getLast? with
    | none => .Succeeded ""
    | some rec =>
      if rec.msg = "SKIP: not a git repository" then .Skipped "not a git repository"
      else if rec.msg = "SKIP: has no commits" then .Skipped "has no commits"
      else .Succeeded (branchAttr rec)

/-- Whether an outcome is `Skipped`. -/
def Outcome.isSkipped : Outcome → Bool
  | .Skipped _ => true
  | _ => false

/-- Whether an outcome is `Failed`. -/
def Outcome.isFailed : Outcome → Bool
  | .Failed _ => true
  | _ => false

/-- Whether an outcome is `Succeeded`. -/
def Outcome.isSucceeded : Outcome → Bool
  | .Succeeded _ => true
  | _ => false

/-- The git processes started by one call `updateRepo env s repoDir`. -/
def issued (env : Env W) (s : St W) (repoDir : String) : List GitCall :=
  (updateRepo env s repoDir).1.calls.drop s.calls.length

/-- Arguments of the has-commits check. -/
def headArgs : List String := ["rev-parse", "--verify", "HEAD"]
/-- Arguments of the current-branch probe. -/
def branchArgs : List String := ["branch", "--show-current"]
/-- Arguments of the status query. -/
def statusArgs : List String := ["status", "--porcelain"]
/-- Arguments of the stash command for time stamp `t`. -/
def stashArgs (t : String) : List String :=
  ["stash", "push", "-m", "Auto-stash before update " ++ t]
/-- Arguments of the fetch. -/
def fetchArgs : List String := ["fetch", "origin"]
/-- Arguments of the `origin/main` probe. -/
def mainArgs : List String := ["rev-parse", "--verify", "origin/main"]
/-- Arguments of the `origin/master` probe. -/
def masterArgs : List String := ["rev-parse", "--verify", "origin/master"]
/-- Arguments of the checkout of `branch`. -/
def checkoutArgs (branch : String) : List String := ["checkout", branch]
/-- Arguments of the pull of `branch`. -/
def pullArgs (branch : String) : List String := ["pull", "origin", branch]

/-- A fetch, checkout or pull command (by its first argument). -/
def isFetchCheckoutPull (args : List String) : Bool :=
  args.head? = some "fetch" || args.head? = some "checkout" || args.head? = some "pull"

/-- The fixed order of the commands for one repository: `stash` is the stash
message when a stash is made, `viaMaster` says whether `origin/master` is
probed, `branch` is the branch checked out and pulled. -/
def fixedOrder (stash : Option String) (viaMaster : Bool) (branch : String) :
    List (List String) :=
  [headArgs, branchArgs, statusArgs] ++
    (match stash with
      | some t => [stashArgs t]
      | none => []) ++
    [fetchArgs, mainArgs] ++ (if viaMaster then [masterArgs] else []) ++
    [checkoutArgs branch, pullArgs branch]

/-- A call may fail without ending the sequence: the current-branch probe and
the `origin/main` probe. -/
def isProbe (c : GitCall) : Bool :=
  c.args = branchArgs || c.args = mainArgs

/-! ## A concrete world

A small file system with a current directory, used to run the program on
concrete inputs.  Paths are lists of names from the root. -/

/-- A file tree (every node with its absolute path and whether it is a
directory, in listing order) and the process's current directory. -/
structure Sim where
  cwd : List String
  nodes : List (List String × Bool)
  deriving DecidableEq, Repr

/-- Split a path at every `/`; `acc` holds the current element reversed. -/
def splitSlash : List Char → List Char → List String
  | acc, [] => [String.mk acc.reverse]
  | acc, c :: cs =>
    if c = '/' then String.mk acc.reverse :: splitSlash [] cs
    else splitSlash (c :: acc) cs

/-- Resolve `path` against the current directory `cwd`: a path starting with `/`
is taken from the root, any other path from `cwd`; empty elements and `.` are
dropped and `..` goes one level up. -/
def resolve (cwd : List String) (path : String) : List String :=
  let start := if path.data.head? = some '/' then [] else cwd
  (splitSlash [] path.data).foldl
    (fun acc c => if c = "" ∨ c = "." then acc
      else if c = ".." then acc.dropLast else acc ++ [c]) start

/-- The directories of a tree. -/
def Sim.isDirectory (w : Sim) (p : List String) : Bool :=
  p = [] || w.nodes.any (fun n => n.1 = p && n.2)

/-- The world `Sim` as an oracle; git answers come from the table `answer`
and leave the tree untouched. -/
def simEnv (answer : String → List String → GitResult) : Env Sim where
  git := fun w dir args => (w, answer dir args)
  stat := fun w path =>
    let p := resolve w.cwd path
    if p = [] ∨ w.nodes.any (fun n => n.1 = p) then .ok else .notExist
  chdir := fun w path =>
    let p := resolve w.cwd path
    if path ≠ "" ∧ w.isDirectory p then ({ w with cwd := p }, none)
    else (w, some "no such file or directory")
  readDir := fun w =>
    ((w.nodes.filter (fun n => n.1 ≠ [] ∧ n.1.dropLast = w.cwd)).map
      (fun n => ⟨n.1.getLastD "", n.2⟩), none)
  now := fun _ => "2024-05-06 07:08:09"
  joinPath := fun a b => a ++ "/" ++ b

/-- The state in which `main` calls `Run`: a new updater, nothing run yet. -/
def fresh (version baseDir : String) (w : W) : St W :=
  ⟨NewRepoUpdater version baseDir, w, []⟩

/-- Number of calls of `updateRepo` in a run that classify as `Skipped`. -/
def RunResult.skippedCount (res : RunResult W) : Nat :=
  res.history.countP (fun inv => inv.outcome.isSkipped)

/-- Number of calls of `updateRepo` in a run that classify as `Succeeded`. -/
def RunResult.succeededCount (res : RunResult W) : Nat :=
  res.history.countP (fun inv => inv.outcome.isSucceeded)

/-- Number of calls of `updateRepo` in a run that classify as `Failed`. -/
def RunResult.failedCount (res : RunResult W) : Nat :=
  res.history.countP (fun inv => inv.outcome.isFailed)

/-- The failure-list entry `entry` belongs to the call `inv`: it is the
repository name of the call, then `": "`, then a reason. -/
def failureLine (entry : String) (inv : Invocation) : Prop :=
  ∃ reason, entry = Base inv.name ++ (": " ++ reason)

/-- The error messages with which `updateRepo` fails. -/
def failureReasons : List String :=
  ["failed to check status", "failed to stash changes", "failed to fetch",
    "no main/master branch", "failed to checkout main", "failed to checkout master",
    "failed to pull"]

/-- The record of the call `updateRepo env s repoDir`, as `Run` files it. -/
def invocationOf (env : Env W) (s : St W) (repoDir : String) : Invocation :=
  ⟨repoDir, (updateRepo env s repoDir).2,
    (updateRepo env s repoDir).1.r.logger.drop s.r.logger.length⟩

/-! ## The shape of one call of `updateRepo` -/

/-- State `t` is reached from `s` by running the git processes `cs` in `dir` and
writing the log lines `logs`, with no failure recorded. -/
def Ext (dir : String) (s t : St W) (cs : List GitCall) (logs : List LogRecord) : Prop :=
  t.calls = s.calls ++ cs ∧ t.r.logger = s.r.logger ++ logs ∧
    t.r.failedRepos = s.r.failedRepos ∧ t.r.baseDir = s.r.baseDir ∧
    t.r.version = s.r.version ∧ ∀ c ∈ cs, c.dir = dir

/-- The has-commits check succeeded and the current-branch probe was run. -/
def Probed (c1 c2 : GitCall) : Prop :=
  c1.args = headArgs ∧ c1.err = none ∧ c2.args = branchArgs

/-- The status query succeeded with output that is not blank. -/
def Dirty (c3 : GitCall) : Prop :=
  c3.args = statusArgs ∧ c3.err = none ∧ TrimSpace c3.output ≠ ""

/-- The status query succeeded with blank output. -/
def Clean (c3 : GitCall) : Prop :=
  c3.args = statusArgs ∧ c3.err = none ∧ TrimSpace c3.output = ""

/-- The calls up to the point where the fetch starts: three calls on a clean
tree, four (the last a successful stash) on a dirty one. -/
def Prepared (pre : List GitCall) : Prop :=
  ∃ c1 c2 c3, Probed c1 c2 ∧
    ((Clean c3 ∧ pre = [c1, c2, c3]) ∨
      (Dirty c3 ∧ ∃ c4 t, c4.args = stashArgs t ∧ c4.err = none ∧ pre = [c1, c2, c3, c4]))

/-- The probes that resolved the primary branch `b`. -/
def Resolved (probes : List GitCall) (b : String) : Prop :=
  (∃ c6, c6.args = mainArgs ∧ c6.err = none ∧ probes = [c6] ∧ b = "main") ∨
    (∃ c6 c7, c6.args = mainArgs ∧ c6.err ≠ none ∧ c7.args = masterArgs ∧ c7.err = none ∧
      probes = [c6, c7] ∧ b = "master")

/-- A log line with the single attribute `name`. -/
def nameLine (level : Level) (msg name : String) : LogRecord :=
  ⟨level, msg, [("name", .str name)]⟩

/-- The nine ways a call of `updateRepo` for the repository `name` can end:
the git calls it made, the failure entries it appended, its last log line and
the error it returned. -/
inductive Shape (name : String) : List GitCall → List String → LogRecord → Error → Prop
  | notGit : Shape name [] [] (nameLine .info "SKIP: not a git repository" name) none
  | noCommits (c1 : GitCall) (h1 : c1.args = headArgs) (e1 : c1.err ≠ none) :
    Shape name [c1] [] (nameLine .info "SKIP: has no commits" name) none
  | statusFailed (c1 c2 c3 : GitCall) (hp : Probed c1 c2) (h3 : c3.args = statusArgs)
    (e3 : c3.err ≠ none) :
    Shape name [c1, c2, c3] [name ++ ": Failed to check status"]
      (nameLine .error "Failed to check status" name) (some "failed to check status")
  | stashFailed (c1 c2 c3 c4 : GitCall) (t : String) (hp : Probed c1 c2) (h3 : Dirty c3)
    (h4 : c4.args = stashArgs t) (e4 : c4.err ≠ none) :
    Shape name [c1, c2, c3, c4] [name ++ ": Failed to stash changes"]
      (nameLine .error "Failed to stash changes" name) (some "failed to stash changes")
  | fetchFailed (pre : List GitCall) (c5 : GitCall) (hp : Prepared pre)
    (h5 : c5.args = fetchArgs) (e5 : c5.err ≠ none) :
    Shape name (pre ++ [c5]) [name ++ ": Failed to fetch"]
      (nameLine .error "Failed to fetch from origin" name) (some "failed to fetch")
  | noBranch (pre : List GitCall) (c5 c6 c7 : GitCall) (hp : Prepared pre)
    (h5 : c5.args = fetchArgs) (e5 : c5.err = none) (h6 : c6.args = mainArgs)
    (e6 : c6.err ≠ none) (h7 : c7.args = masterArgs) (e7 : c7.err ≠ none) :
    Shape name (pre ++ [c5, c6, c7]) [name ++ ": No main/master branch"]
      (nameLine .error "Neither main nor master branch exists on origin" name)
      (some "no main/master branch")
  | checkoutFailed (pre probes : List GitCall) (c5 c8 : GitCall) (b : String)
    (hp : Prepared pre) (h5 : c5.args = fetchArgs) (e5 : c5.err = none)
    (hr : Resolved probes b) (h8 : c8.args = checkoutArgs b) (e8 : c8.err ≠ none) :
    Shape name (pre ++ c5 :: probes ++ [c8]) [name ++ ": Failed to checkout " ++ b]
      ⟨.error, "Failed to checkout branch", [("name", .str name), ("branch", .str b)]⟩
      (some ("failed to checkout " ++ b))
  | pullFailed (pre probes : List GitCall) (c5 c8 c9 : GitCall) (b : String)
    (hp : Prepared pre) (h5 : c5.args = fetchArgs) (e5 : c5.err = none)
    (hr : Resolved probes b) (h8 : c8.args = checkoutArgs b) (e8 : c8.err = none)
    (h9 : c9.args = pullArgs b) (e9 : c9.err ≠ none) :
    Shape name (pre ++ c5 :: probes ++ [c8, c9]) [name ++ ": Failed to pull"]
      (nameLine .error "Failed to pull latest changes" name) (some "failed to pull")
  | updated (pre probes : List GitCall) (c5 c8 c9 : GitCall) (b : String)
    (hp : Prepared pre) (h5 : c5.args = fetchArgs) (e5 : c5.err = none)
    (hr : Resolved probes b) (h8 : c8.args = checkoutArgs b) (e8 : c8.err = none)
    (h9 : c9.args = pullArgs b) (e9 : c9.err = none) :
    Shape name (pre ++ c5 :: probes ++ [c8, c9]) []
      ⟨.info, "Successfully updated repository", [("name", .str name), ("branch", .str b)]⟩
      none

/-- What a call `updateRepo env s repoDir` with result `res` did, relative to
the state `s` it started from. -/
def Post (env : Env W) (s : St W) (repoDir : String) (res : St W × Error) : Prop :=
  ∃ cs fs mid last,
    res.1.calls = s.calls ++ cs ∧
    res.1.r.failedRepos = s.r.failedRepos ++ fs ∧
    res.1.r.logger = s.r.logger ++ (mid ++ [last]) ∧
    res.1.r.baseDir = s.r.baseDir ∧
    res.1.r.version = s.r.version ∧
    (∀ c ∈ cs, c.dir = repoDir) ∧
    (IsNotExist (env.stat s.w (env.joinPath repoDir ".git")) = true ↔ cs = []) ∧
    (cs = [] → res.1.w = s.w) ∧
    Shape (Base repoDir) cs fs last res.2

/-! ## Concrete inputs -/

/-- A git tool for which every command succeeds and prints nothing. -/
def okAll : String → List String → GitResult :=
  fun _ _ => ⟨"", none⟩

/-- A base directory `/base` holding a plain directory, a file, and five
checkouts. -/
def demoTree : Sim :=
  ⟨[], [(["base"], true),
    (["base", "plainDir"], true),
    (["base", "notes.txt"], false),
    (["base", "repoA"], true), (["base", "repoA", ".git"], true),
    (["base", "brokenRemote"], true), (["base", "brokenRemote", ".git"], true),
    (["base", "repoB"], true), (["base", "repoB", ".git"], true),
    (["base", "emptyRepo"], true), (["base", "emptyRepo", ".git"], true),
    (["base", "orphan"], true), (["base", "orphan", ".git"], true)]⟩

/-- The tree `demoTree` seen from inside `/base`. -/
def inBase : Sim := { demoTree with cwd := ["base"] }

/-- The git tool for `demoTree`: `repoA` is clean and has `origin/main`;
`repoB` is dirty and has only `origin/master`; `brokenRemote` cannot fetch;
`emptyRepo` has no commits; `orphan` has neither `origin/main` nor
`origin/master`. -/
def demoGit : String → List String → GitResult :=
  fun dir args =>
    if dir = "brokenRemote" ∧ args = fetchArgs then ⟨"", some "exit status 128"⟩
    else if dir = "repoB" ∧ args = statusArgs then ⟨" M file.txt\n", none⟩
    else if dir = "repoB" ∧ args = mainArgs then ⟨"", some "exit status 128"⟩
    else if dir = "emptyRepo" ∧ args = headArgs then ⟨"", some "exit status 128"⟩
    else if dir = "orphan" ∧ (args = mainArgs ∨ args = masterArgs) then
      ⟨"", some "exit status 128"⟩
    else if args = branchArgs then ⟨"main\n", none⟩
    else ⟨"", none⟩

/-- A dirty checkout in which `git stash` fails. -/
def stashFails : String → List String → GitResult :=
  fun _ args =>
    if args = statusArgs then ⟨" M file.txt\n", none⟩
    else if args.head? = some "stash" then ⟨"", some "exit status 1"⟩
    else ⟨"", none⟩

/-- A directory `/a` whose only entry is a directory that is also called `a`. -/
def nestedTree : Sim :=
  ⟨[], [(["a"], true), (["a", "a"], true)]⟩

/-- A base directory `/base` holding one plain directory and nothing else. -/
def plainTree : Sim :=
  ⟨[], [(["base"], true), (["base", "plainDir"], true)]⟩

/-- The updater of `main`, about to work inside `/base` of `demoTree`. -/
def demoState : St Sim := fresh "0.0.1" "/base" inBase

/-! ## Basic facts about the state -/

theorem length_pos_iff_ne_empty (x : String) : x.length > 0 ↔ x ≠ "" := by
  cases x with
  | mk l =>
    cases l with
    | nil => simp [String.length]
    | cons a t =>
      simp only [String.length, List.length_cons, gt_iff_lt, Nat.succ_pos, true_iff]
      intro h
      have := congrArg String.data h
      simp at this

theorem Ext.refl (dir : String) (s : St W) : Ext dir s s [] [] := by
  simp [Ext]

theorem Ext.logTo {dir : String} {s t : St W} {cs : List GitCall} {logs : List LogRecord}
    (h : Ext dir s t cs logs) (l : Level) (m : String) (a : List (String × LogValue)) :
    Ext dir s (logTo t l m a) cs (logs ++ [⟨l, m, a⟩]) := by
  obtain ⟨h1, h2, h3, h4, h5, h6⟩ := h
  refine ⟨h1, ?_, h3, h4, h5, h6⟩
  show t.r.logger ++ _ = _
  rw [h2, List.append_assoc]

theorem Ext.run {dir : String} {s t : St W} {cs : List GitCall} {logs : List LogRecord}
    (h : Ext dir s t cs logs) (env : Env W) (a : List String) :
    ∃ c : GitCall, c.args = a ∧ c.err = (runGitCommand env t dir a).2 ∧
      Ext dir s (runGitCommand env t dir a).1 (cs ++ [c]) logs := by
  obtain ⟨h1, h2, h3, h4, h5, h6⟩ := h
  refine ⟨⟨dir, a, (env.git t.w dir a).2.output, (env.git t.w dir a).2.err⟩, rfl, rfl,
    ?_, h2, h3, h4, h5, ?_⟩
  · show t.calls ++ _ = _
    rw [h1, List.append_assoc]
  · intro c hc
    rcases List.mem_append.1 hc with hc | hc
    · exact h6 c hc
    · rw [List.mem_singleton.1 hc]

theorem Ext.runOut {dir : String} {s t : St W} {cs : List GitCall} {logs : List LogRecord}
    (h : Ext dir s t cs logs) (env : Env W) (a : List String) :
    ∃ c : GitCall, c.args = a ∧ c.err = (runGitCommandWithOutput env t dir a).2.2 ∧
      TrimSpace c.output = (runGitCommandWithOutput env t dir a).2.1 ∧
      Ext dir s (runGitCommandWithOutput env t dir a).1 (cs ++ [c]) logs := by
  obtain ⟨h1, h2, h3, h4, h5, h6⟩ := h
  refine ⟨⟨dir, a, (env.git t.w dir a).2.output, (env.git t.w dir a).2.err⟩, rfl, rfl, rfl,
    ?_, h2, h3, h4, h5, ?_⟩
  · show t.calls ++ _ = _
    rw [h1, List.append_assoc]
  · intro c hc
    rcases List.mem_append.1 hc with hc | hc
    · exact h6 c hc
    · rw [List.mem_singleton.1 hc]

theorem Ext.status {dir : String} {s t : St W} {cs : List GitCall} {logs : List LogRecord}
    (h : Ext dir s t cs logs) (env : Env W) :
    ∃ c : GitCall, c.args = statusArgs ∧ c.err = (gitStatusHasChanges env t dir).2.2 ∧
      ((gitStatusHasChanges env t dir).2.1 = true ↔ c.err = none ∧ TrimSpace c.output ≠ "") ∧
      Ext dir s (gitStatusHasChanges env t dir).1 (cs ++ [c]) logs := by
  obtain ⟨c, ha, he, ho, hx⟩ := h.runOut env ["status", "--porcelain"]
  refine ⟨c, ha, ?_, ?_, ?_⟩
  all_goals unfold gitStatusHasChanges
  all_goals dsimp only
  all_goals rw [← he, ← ho]
  all_goals split_ifs with hc
  · rfl
  · exact (not_not.1 hc)
  · simp [hc]
  · have hn : c.err = none := not_not.1 hc
    simp [hn, length_pos_iff_ne_empty]
  · exact hx
  · exact hx

/-! ## The master lemma: every call of `updateRepo` has one of the nine shapes -/

theorem Post.fail {env : Env W} {s t : St W} {d : String} {cs : List GitCall}
    {logs : List LogRecord} (h : Ext d s t cs logs) (hne : cs ≠ [])
    (hstat : ¬ IsNotExist (env.stat s.w (env.joinPath d ".git")) = true)
    (l : Level) (m : String) (a : List (String × LogValue)) (entry msg : String)
    (hs : Shape (Base d) cs [entry] ⟨l, m, a⟩ (some msg)) :
    Post env s d (addFailure (logTo t l m a) entry, some msg) := by
  obtain ⟨h1, h2, h3, h4, h5, h6⟩ := h
  refine ⟨cs, [entry], logs, ⟨l, m, a⟩, h1, ?_, ?_, h4, h5, h6, ?_, ?_, hs⟩
  · show t.r.failedRepos ++ _ = _
    rw [h3]
  · show t.r.logger ++ _ = _
    rw [h2, List.append_assoc]
  · exact ⟨fun h => absurd h hstat, fun h => absurd h hne⟩
  · exact fun h => absurd h hne

theorem Post.ok {env : Env W} {s t : St W} {d : String} {cs : List GitCall}
    {logs : List LogRecord} (h : Ext d s t cs logs) (hne : cs ≠ [])
    (hstat : ¬ IsNotExist (env.stat s.w (env.joinPath d ".git")) = true)
    (l : Level) (m : String) (a : List (String × LogValue))
    (hs : Shape (Base d) cs [] ⟨l, m, a⟩ none) :
    Post env s d (logTo t l m a, none) := by
  obtain ⟨h1, h2, h3, h4, h5, h6⟩ := h
  refine ⟨cs, [], logs, ⟨l, m, a⟩, h1, ?_, ?_, h4, h5, h6, ?_, ?_, hs⟩
  · show t.r.failedRepos = _
    rw [h3, List.append_nil]
  · show t.r.logger ++ _ = _
    rw [h2, List.append_assoc]
  · exact ⟨fun h => absurd h hstat, fun h => absurd h hne⟩
  · exact fun h => absurd h hne

theorem updateRepo_post (env : Env W) (s : St W) (d : String) :
    Post env s d (updateRepo env s d) := by
  unfold updateRepo
  lift_lets
  intro repoName s0 head cur s1 status f3 f3a sw stashMsg stashed f4 f4a fetched f5 f5a
    onMain onMaster resolved
  have e0 : Ext d s s0 [] [nameLine .info "Processing repository" repoName] :=
    (Ext.refl d s).logTo _ _ _
  have hw0 : s0.w = s.w := rfl
  by_cases hstat : IsNotExist (env.stat s.w (env.joinPath d ".git")) = true
  · rw [hw0, if_pos hstat]
    obtain ⟨h1, h2, h3, h4, h5, h6⟩ := e0
    refine ⟨[], [], [nameLine .info "Processing repository" repoName],
      nameLine .info "SKIP: not a git repository" (Base d), h1, ?_, ?_, h4, h5, h6, ?_, ?_,
      Shape.notGit⟩
    · show s0.r.failedRepos = _
      rw [h3, List.append_nil]
    · show s0.r.logger ++ _ = _
      rw [h2, List.append_assoc]
      rfl
    · simp [hstat]
    · intro _; rfl
  rw [hw0, if_neg hstat]
  -- has-commits check
  obtain ⟨c1, a1, r1, e1⟩ := e0.run env ["rev-parse", "--verify", "HEAD"]
  change c1.err = head.2 at r1
  change Ext d s head.1 _ _ at e1
  clear_value head
  by_cases hhead : head.2 ≠ none
  · rw [if_pos hhead]
    exact Post.ok e1 (by simp) hstat _ _ _ (Shape.noCommits c1 a1 (r1 ▸ hhead))
  rw [if_neg hhead]
  have ok1 : c1.err = none := by rw [r1]; exact not_not.1 hhead
  -- current-branch probe
  obtain ⟨c2, a2, -, -, e2⟩ := e1.runOut env ["branch", "--show-current"]
  change Ext d s cur.1 _ _ at e2
  have hp : Probed c1 c2 := ⟨a1, ok1, a2⟩
  obtain ⟨l1, e2a⟩ : ∃ l, Ext d s s1 ([] ++ [c1] ++ [c2]) l := by
    by_cases hc : cur.2.2 ≠ none ∨ cur.2.1 = ""
    · exact ⟨_, by simpa only [s1, if_pos hc] using e2.logTo _ _ _⟩
    · exact ⟨_, by simpa only [s1, if_neg hc] using e2⟩
  clear_value s1
  -- status query
  obtain ⟨c3, a3, r3, d3, e3⟩ := e2a.status env
  change c3.err = status.2.2 at r3
  change (status.2.1 = true ↔ _) at d3
  change Ext d s status.1 _ _ at e3
  clear_value status
  by_cases hst : status.2.2 ≠ none
  · rw [if_pos hst]
    exact Post.fail e3 (by simp) hstat _ _ _ _ _
      (Shape.statusFailed c1 c2 c3 hp a3 (r3 ▸ hst))
  rw [if_neg hst]
  have ok3 : c3.err = none := by rw [r3]; exact not_not.1 hst
  -- stash
  have hstash : (stashed.2 = none ∧ ∃ pre l, Prepared pre ∧ pre ≠ [] ∧ Ext d s stashed.1 pre l) ∨
      (stashed.2 ≠ none ∧ ∃ c4 t l, Dirty c3 ∧ c4.args = stashArgs t ∧ c4.err ≠ none ∧
        Ext d s stashed.1 [c1, c2, c3, c4] l) := by
    by_cases hd : status.2.1 = true
    · have hdirty : Dirty c3 := ⟨a3, ok3, (d3.1 hd).2⟩
      obtain ⟨c4, a4, r4, e4⟩ := (e3.logTo .warn "has uncommitted changes - stashing"
        [("name", .str repoName)]).run env ["stash", "push", "-m", stashMsg]
      have hs : stashed = runGitCommand env sw d ["stash", "push", "-m", stashMsg] := by
        simp only [stashed, if_pos hd]
      rw [← hs] at r4 e4
      by_cases h4 : stashed.2 = none
      · exact Or.inl ⟨h4, _, _, ⟨c1, c2, c3, hp, Or.inr ⟨hdirty, c4, _, a4, r4 ▸ h4, rfl⟩⟩,
          by simp, e4⟩
      · exact Or.inr ⟨h4, c4, _, _, hdirty, a4, r4 ▸ h4, e4⟩
    · have hs : stashed = (status.1, none) := by simp only [stashed, if_neg hd]
      have hclean : Clean c3 := by
        refine ⟨a3, ok3, ?_⟩
        by_contra hne
        exact hd (d3.2 ⟨ok3, hne⟩)
      exact Or.inl ⟨by rw [hs], _, _, ⟨c1, c2, c3, hp, Or.inl ⟨hclean, rfl⟩⟩, by simp,
        by rw [hs]; exact e3⟩
  clear_value stashed
  rcases hstash with ⟨hs, pre, l4, hpre, hprene, e4⟩ | ⟨hs, c4, t, l4, hdirty, a4, r4, e4⟩
  swap
  · rw [if_pos hs]
    exact Post.fail e4 (by simp) hstat _ _ _ _ _
      (Shape.stashFailed c1 c2 c3 c4 t hp hdirty a4 r4)
  rw [if_neg (not_not.2 hs)]
  -- fetch
  obtain ⟨c5, a5, r5, e5⟩ := e4.run env ["fetch", "origin"]
  change c5.err = fetched.2 at r5
  change Ext d s fetched.1 _ _ at e5
  clear_value fetched
  by_cases hf : fetched.2 ≠ none
  · rw [if_pos hf]
    exact Post.fail e5 (by simp) hstat _ _ _ _ _
      (Shape.fetchFailed pre c5 hpre a5 (r5 ▸ hf))
  rw [if_neg hf]
  have ok5 : c5.err = none := by rw [r5]; exact not_not.1 hf
  -- primary-branch resolution
  obtain ⟨c6, a6, r6, e6⟩ := e5.run env ["rev-parse", "--verify", "origin/main"]
  change c6.err = onMain.2 at r6
  change Ext d s onMain.1 _ _ at e6
  clear_value onMain
  obtain ⟨c7, a7, r7, e7⟩ := e6.run env ["rev-parse", "--verify", "origin/master"]
  change c7.err = onMaster.2 at r7
  change Ext d s onMaster.1 _ _ at e7
  clear_value onMaster
  by_cases hm : onMain.2 = none
  · have hres : resolved = (onMain.1, some "main") := by simp only [resolved, if_pos hm]
    clear_value resolved
    subst hres
    have hr : Resolved [c6] "main" := Or.inl ⟨c6, a6, r6 ▸ hm, rfl, rfl⟩
    dsimp only
    obtain ⟨c8, a8, r8, e8⟩ := e6.run env ["checkout", "main"]
    generalize runGitCommand env onMain.1 d ["checkout", "main"] = checkedOut at r8 e8 ⊢
    by_cases hc : checkedOut.2 ≠ none
    · rw [if_pos hc]
      have sh : Shape (Base d) _ _ _ _ :=
        Shape.checkoutFailed pre [c6] c5 c8 "main" hpre a5 ok5 hr a8 (r8 ▸ hc)
      exact Post.fail e8 (by simp) hstat .error "Failed to checkout branch"
        [("name", .str repoName), ("branch", .str "main")]
        (repoName ++ ": Failed to checkout " ++ "main") ("failed to checkout " ++ "main")
        (by simpa using sh)
    rw [if_neg hc]
    have ok8 : c8.err = none := by rw [r8]; exact not_not.1 hc
    obtain ⟨c9, a9, r9, e9⟩ := e8.run env ["pull", "origin", "main"]
    generalize runGitCommand env checkedOut.1 d ["pull", "origin", "main"] = pulled at r9 e9 ⊢
    by_cases hpl : pulled.2 ≠ none
    · rw [if_pos hpl]
      have sh : Shape (Base d) _ _ _ _ :=
        Shape.pullFailed pre [c6] c5 c8 c9 "main" hpre a5 ok5 hr a8 ok8 a9 (r9 ▸ hpl)
      exact Post.fail e9 (by simp) hstat _ _ _ _ _ (by simpa using sh)
    rw [if_neg hpl]
    have ok9 : c9.err = none := by rw [r9]; exact not_not.1 hpl
    have sh : Shape (Base d) _ _ _ _ :=
      Shape.updated pre [c6] c5 c8 c9 "main" hpre a5 ok5 hr a8 ok8 a9 ok9
    exact Post.ok e9 (by simp) hstat _ _ _ (by simpa using sh)
  have bad6 : c6.err ≠ none := by rw [r6]; exact hm
  by_cases hms : onMaster.2 = none
  · have hres : resolved = (onMaster.1, some "master") := by
      simp only [resolved, if_neg hm, if_pos hms]
    clear_value resolved
    subst hres
    have hr : Resolved [c6, c7] "master" := Or.inr ⟨c6, c7, a6, bad6, a7, r7 ▸ hms, rfl, rfl⟩
    dsimp only
    obtain ⟨c8, a8, r8, e8⟩ := e7.run env ["checkout", "master"]
    generalize runGitCommand env onMaster.1 d ["checkout", "master"] = checkedOut at r8 e8 ⊢
    by_cases hc : checkedOut.2 ≠ none
    · rw [if_pos hc]
      have sh : Shape (Base d) _ _ _ _ :=
        Shape.checkoutFailed pre [c6, c7] c5 c8 "master" hpre a5 ok5 hr a8 (r8 ▸ hc)
      exact Post.fail e8 (by simp) hstat .error "Failed to checkout branch"
        [("name", .str repoName), ("branch", .str "master")]
        (repoName ++ ": Failed to checkout " ++ "master") ("failed to checkout " ++ "master")
        (by simpa using sh)
    rw [if_neg hc]
    have ok8 : c8.err = none := by rw [r8]; exact not_not.1 hc
    obtain ⟨c9, a9, r9, e9⟩ := e8.run env ["pull", "origin", "master"]
    generalize runGitCommand env checkedOut.1 d ["pull", "origin", "master"] = pulled at r9 e9 ⊢
    by_cases hpl : pulled.2 ≠ none
    · rw [if_pos hpl]
      have sh : Shape (Base d) _ _ _ _ :=
        Shape.pullFailed pre [c6, c7] c5 c8 c9 "master" hpre a5 ok5 hr a8 ok8 a9 (r9 ▸ hpl)
      exact Post.fail e9 (by simp) hstat _ _ _ _ _ (by simpa using sh)
    rw [if_neg hpl]
    have ok9 : c9.err = none := by rw [r9]; exact not_not.1 hpl
    have sh : Shape (Base d) _ _ _ _ :=
      Shape.updated pre [c6, c7] c5 c8 c9 "master" hpre a5 ok5 hr a8 ok8 a9 ok9
    exact Post.ok e9 (by simp) hstat _ _ _ (by simpa using sh)
  · have hres : resolved = (onMaster.1, none) := by
      simp only [resolved, if_neg hm, if_neg hms]
    clear_value resolved
    subst hres
    dsimp only
    have sh : Shape (Base d) _ _ _ _ :=
      Shape.noBranch pre c5 c6 c7 hpre a5 ok5 a6 bad6 a7 (r7 ▸ hms)
    exact Post.fail e7 (by simp) hstat _ _ _ _ _ (by simpa using sh)

/-! ## Consequences of the master lemma -/

theorem updateRepo_shape (env : Env W) (s : St W) (d : String) :
    ∃ fs mid last,
      (updateRepo env s d).1.calls = s.calls ++ issued env s d ∧
      (updateRepo env s d).1.r.failedRepos = s.r.failedRepos ++ fs ∧
      (updateRepo env s d).1.r.logger = s.r.logger ++ (mid ++ [last]) ∧
      (updateRepo env s d).1.r.baseDir = s.r.baseDir ∧
      (∀ c ∈ issued env s d, c.dir = d) ∧
      (IsNotExist (env.stat s.w (env.joinPath d ".git")) = true ↔ issued env s d = []) ∧
      (issued env s d = [] → (updateRepo env s d).1.w = s.w) ∧
      Shape (Base d) (issued env s d) fs last (updateRepo env s d).2 := by
  obtain ⟨cs, fs, mid, last, h1, h2, h3, h4, -, h6, h7, h8, h9⟩ := updateRepo_post env s d
  have hi : issued env s d = cs := by
    unfold issued
    rw [h1, List.drop_left]
  rw [hi]
  exact ⟨fs, mid, last, h1, h2, h3, h4, h6, h7, h8, h9⟩

theorem Prepared.ne_nil {pre : List GitCall} (h : Prepared pre) : pre ≠ [] := by
  obtain ⟨c1, c2, c3, -, ⟨-, rfl⟩ | ⟨-, c4, t, -, -, rfl⟩⟩ := h <;> simp

/-- A call that returned `nil` appended nothing; a call that returned an error
appended exactly one entry, which starts with the repository name. -/
theorem Shape.failures {name : String} {cs : List GitCall} {fs : List String}
    {last : LogRecord} {err : Error} (h : Shape name cs fs last err) :
    (err = none ∧ fs = []) ∨ (∃ reason, err ≠ none ∧ fs = [name ++ (": " ++ reason)]) := by
  cases h
  case notGit => exact Or.inl ⟨rfl, rfl⟩
  case noCommits => exact Or.inl ⟨rfl, rfl⟩
  case updated => exact Or.inl ⟨rfl, rfl⟩
  case statusFailed => exact Or.inr ⟨"Failed to check status", by simp, rfl⟩
  case stashFailed => exact Or.inr ⟨"Failed to stash changes", by simp, rfl⟩
  case fetchFailed => exact Or.inr ⟨"Failed to fetch", by simp, rfl⟩
  case noBranch => exact Or.inr ⟨"No main/master branch", by simp, rfl⟩
  case checkoutFailed b _ _ _ _ _ _ =>
    refine Or.inr ⟨"Failed to checkout " ++ b, by simp, ?_⟩
    rw [String.append_assoc]
    rfl
  case pullFailed => exact Or.inr ⟨"Failed to pull", by simp, rfl⟩

/-- The error messages `updateRepo` can return. -/
theorem Shape.reasons {name : String} {cs : List GitCall} {fs : List String}
    {last : LogRecord} {err : Error} (h : Shape name cs fs last err) :
    err = none ∨ err ∈ [some "failed to check status", some "failed to stash changes",
      some "failed to fetch", some "no main/master branch", some "failed to checkout main",
      some "failed to checkout master", some "failed to pull"] := by
  cases h
  case checkoutFailed b _ _ _ hr _ _ =>
    rcases hr with ⟨_, _, _, _, rfl⟩ | ⟨_, _, _, _, _, _, _, rfl⟩ <;> right <;> decide
  all_goals first
    | exact Or.inl rfl
    | (right; simp)

/-! ## The loop of `Run` -/

theorem outcome_isFailed (inv : Invocation) :
    inv.outcome.isFailed = true ↔ inv.err ≠ none := by
  unfold Invocation.outcome
  cases inv.err with
  | some e => simp [Outcome.isFailed]
  | none =>
    simp only [ne_eq, not_true_eq_false, iff_false]
    split
    · simp [Outcome.isFailed]
    · split_ifs <;> simp [Outcome.isFailed]

theorem outcome_counts (inv : Invocation) :
    (inv.err = none ↔ (inv.outcome.isSkipped = true ∨ inv.outcome.isSucceeded = true)) ∧
    ¬ (inv.outcome.isSkipped = true ∧ inv.outcome.isSucceeded = true) := by
  unfold Invocation.outcome
  cases inv.err with
  | some e => simp [Outcome.isSkipped, Outcome.isSucceeded]
  | none =>
    simp only [true_iff]
    split
    · simp [Outcome.isSkipped, Outcome.isSucceeded]
    · split_ifs <;> simp [Outcome.isSkipped, Outcome.isSucceeded]

/-- What one call of `updateRepo` contributes to the loop of `Run`. -/
theorem invocationOf_spec (env : Env W) (s : St W) (d : String) :
    ∃ fs, (updateRepo env s d).1.r.failedRepos = s.r.failedRepos ++ fs ∧
      (updateRepo env s d).1.r.baseDir = s.r.baseDir ∧
      (((invocationOf env s d).err = none ∧ fs = []) ∨
        ((invocationOf env s d).err ≠ none ∧ ∃ e, fs = [e] ∧ failureLine e (invocationOf env s d))) ∧
      (∀ reason, (invocationOf env s d).err = some reason → reason ∈ failureReasons) ∧
      (∀ c ∈ (updateRepo env s d).1.calls, c ∈ s.calls ∨ c.dir = d) := by
  obtain ⟨fs, mid, last, h1, h2, -, h4, h5, -, -, hs⟩ := updateRepo_shape env s d
  refine ⟨fs, h2, h4, ?_, ?_, ?_⟩
  · rcases hs.failures with ⟨he, hf⟩ | ⟨reason, he, hf⟩
    · exact Or.inl ⟨he, hf⟩
    · exact Or.inr ⟨he, _, hf, reason, rfl⟩
  · intro reason hr
    have hr2 : (updateRepo env s d).2 = some reason := hr
    rcases hs.reasons with he | he
    · rw [he] at hr2; cases hr2
    · rw [hr2] at he
      simpa [failureReasons] using he
  · intro c hc
    rw [h1] at hc
    rcases List.mem_append.1 hc with hc | hc
    · exact Or.inl hc
    · exact Or.inr (h5 c hc)

/-- The invariant of the loop of `Run`: the calls made, the counters and the
failure list move together. -/
theorem runLoop_spec (env : Env W) (entries : List DirEntry) (ls : LoopState W) :
    ∃ (new : List Invocation) (fss : List String),
      (runLoop env ls entries).1.history = ls.history ++ new ∧
      (runLoop env ls entries).1.processed = ls.processed + new.length ∧
      (runLoop env ls entries).1.successful =
        ls.successful + new.countP (fun inv => decide (inv.err = none)) ∧
      (runLoop env ls entries).1.s.r.failedRepos = ls.s.r.failedRepos ++ fss ∧
      List.Forall₂ failureLine fss (new.filter (fun inv => decide (inv.err ≠ none))) ∧
      (∀ inv ∈ new, ∀ reason, inv.err = some reason → reason ∈ failureReasons) ∧
      (∀ c ∈ (runLoop env ls entries).1.s.calls,
        c ∈ ls.s.calls ∨ ∃ e ∈ entries, e.isDir = true ∧ c.dir = e.name) ∧
      ((runLoop env ls entries).2 = none →
        new.map (fun inv => inv.name) = (entries.filter (fun e => e.isDir)).map (fun e => e.name)) ∧
      ((runLoop env ls entries).2 = none ∨
        (runLoop env ls entries).2 = some "cannot return to base directory") := by
  induction entries generalizing ls with
  | nil =>
    exact ⟨[], [], by simp [runLoop], by simp [runLoop], by simp [runLoop], by simp [runLoop],
      by simp, by simp, by simp [runLoop], by simp [runLoop], Or.inl rfl⟩
  | cons entry rest ih =>
    by_cases hdir : entry.isDir = true
    swap
    · obtain ⟨new, fss, h1, h2, h3, h4, h5, h6, h7, h8, h9⟩ := ih ls
      have hstep : runLoop env ls (entry :: rest) = runLoop env ls rest := by
        simp [runLoop, hdir]
      rw [hstep]
      refine ⟨new, fss, h1, h2, h3, h4, h5, h6, ?_, ?_, h9⟩
      · intro c hc
        rcases h7 c hc with h | ⟨e, he, hd, hn⟩
        · exact Or.inl h
        · exact Or.inr ⟨e, List.mem_cons_of_mem _ he, hd, hn⟩
      · intro h
        rw [h8 h]
        simp [hdir]
    · obtain ⟨fs, f1, f2, f3, f4, f5⟩ := invocationOf_spec env ls.s entry.name
      have finv : (⟨entry.name, (updateRepo env ls.s entry.name).2,
          (updateRepo env ls.s entry.name).1.r.logger.drop ls.s.r.logger.length⟩ : Invocation) =
          invocationOf env ls.s entry.name := rfl
      cases hcd : (env.chdir (updateRepo env ls.s entry.name).1.w
          (updateRepo env ls.s entry.name).1.r.baseDir).2 with
      | some e =>
        have hstep : runLoop env ls (entry :: rest) =
            (⟨logTo { (updateRepo env ls.s entry.name).1 with
                w := (env.chdir (updateRepo env ls.s entry.name).1.w
                  (updateRepo env ls.s entry.name).1.r.baseDir).1 }
                .error "Cannot return to base directory"
                [("baseDir", .str (updateRepo env ls.s entry.name).1.r.baseDir)],
              ls.processed + 1,
              if (updateRepo env ls.s entry.name).2 = none then ls.successful + 1
              else ls.successful,
              ls.history ++ [invocationOf env ls.s entry.name]⟩,
              some "cannot return to base directory") := by
          simp only [runLoop, hdir, if_true, hcd, finv]
        rw [hstep]
        refine ⟨[invocationOf env ls.s entry.name], fs, rfl, rfl, ?_, f1, ?_, ?_, ?_, ?_,
          Or.inr rfl⟩
        · show (if (invocationOf env ls.s entry.name).err = none then _ else _) = _
          split_ifs with h <;> simp [h]
        · rcases f3 with ⟨he, hf⟩ | ⟨he, e', hf, hl⟩
          · simp [he, hf]
          · simp [he, hf, hl]
        · intro inv hinv reason hr
          rw [List.mem_singleton.1 hinv] at hr
          exact f4 reason hr
        · intro c hc
          rcases f5 c hc with h | h
          · exact Or.inl h
          · exact Or.inr ⟨entry, List.mem_cons_self _ _, hdir, h⟩
        · intro h; cases h
      | none =>
        obtain ⟨new, fss, h1, h2, h3, h4, h5, h6, h7, h8, h9⟩ := ih
          ⟨{ (updateRepo env ls.s entry.name).1 with
              w := (env.chdir (updateRepo env ls.s entry.name).1.w
                (updateRepo env ls.s entry.name).1.r.baseDir).1 },
            ls.processed + 1,
            if (updateRepo env ls.s entry.name).2 = none then ls.successful + 1
            else ls.successful,
            ls.history ++ [invocationOf env ls.s entry.name]⟩
        dsimp only at h1 h2 h3 h4 h7
        have hstep : runLoop env ls (entry :: rest) = runLoop env
            ⟨{ (updateRepo env ls.s entry.name).1 with
              w := (env.chdir (updateRepo env ls.s entry.name).1.w
                (updateRepo env ls.s entry.name).1.r.baseDir).1 },
            ls.processed + 1,
            if (updateRepo env ls.s entry.name).2 = none then ls.successful + 1
            else ls.successful,
            ls.history ++ [invocationOf env ls.s entry.name]⟩ rest := by
          simp only [runLoop, hdir, if_true, hcd, finv]
        rw [hstep]
        refine ⟨invocationOf env ls.s entry.name :: new, fs ++ fss, ?_, ?_, ?_, ?_, ?_, ?_, ?_,
          ?_, h9⟩
        · rw [h1]; simp
        · rw [h2, List.length_cons]; omega
        · rw [h3]
          have : (invocationOf env ls.s entry.name).err = (updateRepo env ls.s entry.name).2 := rfl
          rw [List.countP_cons, this]
          by_cases h : (updateRepo env ls.s entry.name).2 = none
          · simp only [h, if_true, decide_True]; omega
          · simp only [h, if_false, decide_False]
            simp
        · rw [h4]
          show (updateRepo env ls.s entry.name).1.r.failedRepos ++ fss = _
          rw [f1, List.append_assoc]
        · rcases f3 with ⟨he, hf⟩ | ⟨he, e', hf, hl⟩
          · simpa [he, hf] using h5
          · simp only [hf, List.filter_cons, he, ne_eq, not_false_eq_true, decide_True,
              if_true, List.singleton_append]
            exact List.Forall₂.cons hl h5
        · intro inv hinv reason hr
          rcases List.mem_cons.1 hinv with h | h
          · rw [h] at hr; exact f4 reason hr
          · exact h6 inv h reason hr
        · intro c hc
          rcases h7 c hc with h | ⟨e, he, hd, hn⟩
          · rcases f5 c h with h' | h'
            · exact Or.inl h'
            · exact Or.inr ⟨entry, List.mem_cons_self _ _, hdir, h'⟩
          · exact Or.inr ⟨e, List.mem_cons_of_mem _ he, hd, hn⟩
        · intro h
          simp [h8 h, hdir, invocationOf]

/-! ## `Run` as a whole -/

/-- The three ways `Run` ends: it cannot enter the base directory, it cannot
list it, or it runs the loop over the listing and ends with the outcome of the
loop. -/
theorem Run_cases (env : Env W) (s : St W) :
    ((env.chdir s.w s.r.baseDir).2 ≠ none ∧ (Run env s).summary = false ∧
      (Run env s).history = [] ∧ (Run env s).processed = 0 ∧ (Run env s).successful = 0 ∧
      (Run env s).s.r.failedRepos = s.r.failedRepos ∧ (Run env s).s.calls = s.calls) ∨
    ((env.chdir s.w s.r.baseDir).2 = none ∧
      (env.readDir (env.chdir s.w s.r.baseDir).1).2 ≠ none ∧ (Run env s).summary = false ∧
      (Run env s).history = [] ∧ (Run env s).processed = 0 ∧ (Run env s).successful = 0 ∧
      (Run env s).s.r.failedRepos = s.r.failedRepos ∧ (Run env s).s.calls = s.calls) ∨
    ((env.chdir s.w s.r.baseDir).2 = none ∧
      (env.readDir (env.chdir s.w s.r.baseDir).1).2 = none ∧
      ∃ ls0 : LoopState W, ls0.history = [] ∧ ls0.processed = 0 ∧ ls0.successful = 0 ∧
        ls0.s.r.failedRepos = s.r.failedRepos ∧ ls0.s.calls = s.calls ∧
        (Run env s).history =
          (runLoop env ls0 (env.readDir (env.chdir s.w s.r.baseDir).1).1).1.history ∧
        (Run env s).processed =
          (runLoop env ls0 (env.readDir (env.chdir s.w s.r.baseDir).1).1).1.processed ∧
        (Run env s).successful =
          (runLoop env ls0 (env.readDir (env.chdir s.w s.r.baseDir).1).1).1.successful ∧
        (Run env s).s.r.failedRepos =
          (runLoop env ls0 (env.readDir (env.chdir s.w s.r.baseDir).1).1).1.s.r.failedRepos ∧
        (Run env s).s.calls =
          (runLoop env ls0 (env.readDir (env.chdir s.w s.r.baseDir).1).1).1.s.calls ∧
        (((runLoop env ls0 (env.readDir (env.chdir s.w s.r.baseDir).1).1).2 ≠ none ∧
            (Run env s).summary = false ∧
            (Run env s).err =
              (runLoop env ls0 (env.readDir (env.chdir s.w s.r.baseDir).1).1).2) ∨
          ((runLoop env ls0 (env.readDir (env.chdir s.w s.r.baseDir).1).1).2 = none ∧
            (Run env s).summary = true ∧
            (Run env s).err ≠ some "cannot return to base directory" ∧
            ((Run env s).err ≠ none ↔ (Run env s).s.r.failedRepos ≠ [])))) := by
  have hw : (logTo s .info "Starting repository update process"
      [("baseDir", .str s.r.baseDir)]).w = s.w := rfl
  have hb : (logTo s .info "Starting repository update process"
      [("baseDir", .str s.r.baseDir)]).r.baseDir = s.r.baseDir := rfl
  cases hcd : (env.chdir s.w s.r.baseDir).2 with
  | some e =>
    refine Or.inl ⟨by simp, ?_⟩
    simp [Run, hw, hb, hcd, logTo]
  | none =>
    right
    rcases hrd : env.readDir (env.chdir s.w s.r.baseDir).1 with ⟨entries, _ | e⟩
    swap
    · refine Or.inl ⟨rfl, by simp, ?_⟩
      simp [Run, hw, hb, hcd, hrd, logTo]
    · refine Or.inr ⟨rfl, rfl, ⟨{ logTo s .info "Starting repository update process"
          [("baseDir", .str s.r.baseDir)] with w := (env.chdir s.w s.r.baseDir).1 }, 0, 0, []⟩,
        rfl, rfl, rfl, rfl, rfl, ?_⟩
      dsimp only
      rcases hl : runLoop env ⟨{ logTo s .info "Starting repository update process"
          [("baseDir", .str s.r.baseDir)] with w := (env.chdir s.w s.r.baseDir).1 }, 0, 0, []⟩
          entries with ⟨ls1, _ | e⟩
      · simp only [Run, hw, hb, hcd, hrd, hl]
        by_cases hf : ls1.s.r.failedRepos = []
        · simp [hf, logTo]
        · have hpos : 0 < ls1.s.r.failedRepos.length := List.length_pos.2 hf
          simp [hf, hpos, logTo]
      · simp only [Run, hw, hb, hcd, hrd, hl]
        simp

/-- On an updater with an empty failure list, at the end of `Run` (however it
ends) the failure list lines up with the failed calls, and the counters count
the calls and the calls that returned `nil`. -/
theorem Run_spec (env : Env W) (s : St W) (hs : s.r.failedRepos = []) :
    List.Forall₂ failureLine (Run env s).s.r.failedRepos
      ((Run env s).history.filter (fun inv => decide (inv.err ≠ none))) ∧
    (Run env s).processed = (Run env s).history.length ∧
    (Run env s).successful = (Run env s).history.countP (fun inv => decide (inv.err = none)) ∧
    (∀ inv ∈ (Run env s).history, ∀ reason, inv.err = some reason → reason ∈ failureReasons) := by
  rcases Run_cases env s with ⟨-, -, h1, h2, h3, h4, -⟩ | ⟨-, -, -, h1, h2, h3, h4, -⟩ |
    ⟨-, -, ls0, l1, l2, l3, l4, -, h1, h2, h3, h4, -, -⟩
  · rw [h1, h2, h3, h4, hs]; simp
  · rw [h1, h2, h3, h4, hs]; simp
  · obtain ⟨new, fss, r1, r2, r3, r4, r5, r6, -, -, -⟩ :=
      runLoop_spec env (env.readDir (env.chdir s.w s.r.baseDir).1).1 ls0
    rw [h1, h2, h3, h4, r1, r2, r3, r4, l1, l2, l3, l4, hs]
    simp only [List.nil_append, Nat.zero_add]
    exact ⟨r5, trivial, trivial, r6⟩

/-- Go `Run` writes its summary exactly when the base directory could be entered,
the listing could be read and no restoration failed; it then has called
`updateRepo` once for each directory entry, in order, and returns an error
exactly when the failure list is not empty. -/
theorem Run_summary (env : Env W) (s : St W) :
    ((Run env s).summary = true ↔
      (env.chdir s.w s.r.baseDir).2 = none ∧
      (env.readDir (env.chdir s.w s.r.baseDir).1).2 = none ∧
      (Run env s).err ≠ some "cannot return to base directory") ∧
    ((Run env s).summary = true →
      ((Run env s).err ≠ none ↔ (Run env s).s.r.failedRepos ≠ []) ∧
      (Run env s).history.map (fun inv => inv.name) =
        ((env.readDir (env.chdir s.w s.r.baseDir).1).1.filter (fun e => e.isDir)).map
          (fun e => e.name) ∧
      (∀ c ∈ (Run env s).s.calls, c ∈ s.calls ∨
        ∃ e ∈ (env.readDir (env.chdir s.w s.r.baseDir).1).1, e.isDir = true ∧ c.dir = e.name)) := by
  rcases Run_cases env s with ⟨hcd, hsum, -⟩ | ⟨hcd, hls, hsum, -⟩ |
    ⟨hcd, hls, ls0, l1, l2, l3, l4, l5, h1, h2, h3, h4, h5, hend⟩
  · rw [hsum]
    exact ⟨⟨fun h => Bool.noConfusion h, fun h => absurd h.1 hcd⟩, fun h => Bool.noConfusion h⟩
  · rw [hsum]
    exact ⟨⟨fun h => Bool.noConfusion h, fun h => absurd h.2.1 hls⟩, fun h => Bool.noConfusion h⟩
  · obtain ⟨new, fss, r1, -, -, -, -, -, r7, r8, r9⟩ :=
      runLoop_spec env (env.readDir (env.chdir s.w s.r.baseDir).1).1 ls0
    rcases hend with ⟨hl, hsum, herr⟩ | ⟨hl, hsum, hne, hiff⟩
    · rw [hsum]
      refine ⟨⟨fun h => Bool.noConfusion h, fun h => ?_⟩, fun h => Bool.noConfusion h⟩
      rcases r9 with h9 | h9
      · exact absurd h9 hl
      · exact absurd (herr.trans h9) h.2.2
    · rw [hsum]
      refine ⟨⟨fun _ => ⟨hcd, hls, hne⟩, fun _ => rfl⟩, fun _ => ⟨hiff, ?_, ?_⟩⟩
      · rw [h1, r1, l1, List.nil_append]
        exact r8 hl
      · intro c hc
        rw [h5] at hc
        rcases r7 c hc with h | h
        · exact Or.inl (l5 ▸ h)
        · exact Or.inr h

theorem filter_failed_eq (l : List Invocation) :
    l.filter (fun inv => inv.outcome.isFailed) = l.filter (fun inv => decide (inv.err ≠ none)) := by
  apply List.filter_congr
  intro inv _
  by_cases h : inv.err = none
  · have := (outcome_isFailed inv).not.2 (not_not.2 h)
    simp [h, this]
  · have := (outcome_isFailed inv).2 h
    simp [h, this]

theorem countP_nil_eq (l : List Invocation) :
    l.countP (fun inv => decide (inv.err = none)) =
      l.countP (fun inv => inv.outcome.isSucceeded) + l.countP (fun inv => inv.outcome.isSkipped) := by
  induction l with
  | nil => rfl
  | cons inv t ih =>
    obtain ⟨h1, h2⟩ := outcome_counts inv
    rw [List.countP_cons, List.countP_cons, List.countP_cons, ih]
    by_cases he : inv.err = none
    · rcases h1.1 he with hk | hk
      · have hn : inv.outcome.isSucceeded = false := by
          cases hq : inv.outcome.isSucceeded
          · rfl
          · exact absurd ⟨hk, hq⟩ h2
        simp [he, hk, hn]; omega
      · have hn : inv.outcome.isSkipped = false := by
          cases hq : inv.outcome.isSkipped
          · rfl
          · exact absurd ⟨hq, hk⟩ h2
        simp [he, hk, hn]; omega
    · have hk : inv.outcome.isSkipped = false := by
        cases hq : inv.outcome.isSkipped
        · rfl
        · exact absurd (h1.2 (Or.inl hq)) he
      have hn : inv.outcome.isSucceeded = false := by
        cases hq : inv.outcome.isSucceeded
        · rfl
        · exact absurd (h1.2 (Or.inr hq)) he
      simp [he, hk, hn]

/-- The classification by log line agrees with the two skip conditions of
`updateRepo`: a call is `Skipped` exactly when `.git` does not exist or the
has-commits check failed. -/
theorem skipped_iff (env : Env W) (s : St W) (d : String) :
    (invocationOf env s d).outcome.isSkipped = true ↔
      (IsNotExist (env.stat s.w (env.joinPath d ".git")) = true ∨
        ∃ c ∈ issued env s d, c.args = headArgs ∧ c.err ≠ none) := by
  obtain ⟨fs, mid, last, -, -, h3, -, -, h6, -, hs⟩ := updateRepo_shape env s d
  have hlogs : (invocationOf env s d).logs = mid ++ [last] := by
    show List.drop _ (updateRepo env s d).1.r.logger = _
    rw [h3, List.drop_left]
  have he : (invocationOf env s d).err = (updateRepo env s d).2 := rfl
  unfold Invocation.outcome
  rw [hlogs, he, h6]
  generalize issued env s d = cs at *
  generalize (updateRepo env s d).2 = err at *
  clear h3 hlogs he h6
  rcases hs with _ | ⟨c1, a1, e1⟩ | ⟨c1, c2, c3, ⟨a1, ok1, a2⟩, a3, e3⟩ |
    ⟨c1, c2, c3, c4, t, ⟨a1, ok1, a2⟩, ⟨a3, ok3, o3⟩, a4, e4⟩ |
    ⟨pre, c5, ⟨c1, c2, c3, ⟨a1, ok1, a2⟩,
      (⟨⟨a3, ok3, o3⟩, rfl⟩ | ⟨⟨a3, ok3, o3⟩, c4, t, a4, ok4, rfl⟩)⟩, a5, e5⟩ |
    ⟨pre, c5, c6, c7, ⟨c1, c2, c3, ⟨a1, ok1, a2⟩,
      (⟨⟨a3, ok3, o3⟩, rfl⟩ | ⟨⟨a3, ok3, o3⟩, c4, t, a4, ok4, rfl⟩)⟩, a5, e5, a6, e6, a7, e7⟩ |
    ⟨pre, probes, c5, c8, b, ⟨c1, c2, c3, ⟨a1, ok1, a2⟩,
      (⟨⟨a3, ok3, o3⟩, rfl⟩ | ⟨⟨a3, ok3, o3⟩, c4, t, a4, ok4, rfl⟩)⟩, a5, e5,
      (⟨c6, a6, e6, rfl, rfl⟩ | ⟨c6, c7, a6, e6, a7, e7, rfl, rfl⟩), a8, e8⟩ |
    ⟨pre, probes, c5, c8, c9, b, ⟨c1, c2, c3, ⟨a1, ok1, a2⟩,
      (⟨⟨a3, ok3, o3⟩, rfl⟩ | ⟨⟨a3, ok3, o3⟩, c4, t, a4, ok4, rfl⟩)⟩, a5, e5,
      (⟨c6, a6, e6, rfl, rfl⟩ | ⟨c6, c7, a6, e6, a7, e7, rfl, rfl⟩), a8, e8, a9, e9⟩ |
    ⟨pre, probes, c5, c8, c9, b, ⟨c1, c2, c3, ⟨a1, ok1, a2⟩,
      (⟨⟨a3, ok3, o3⟩, rfl⟩ | ⟨⟨a3, ok3, o3⟩, c4, t, a4, ok4, rfl⟩)⟩, a5, e5,
      (⟨c6, a6, e6, rfl, rfl⟩ | ⟨c6, c7, a6, e6, a7, e7, rfl, rfl⟩), a8, e8, a9, e9⟩
  all_goals simp_all [nameLine, Outcome.isSkipped, headArgs, mainArgs, branchArgs, statusArgs, stashArgs, fetchArgs,
    masterArgs, checkoutArgs, pullArgs]

/-- The repository name of a directory entry is the entry name: `Base` leaves
a name without `/` as it is. -/
theorem Base_of_name (name : String) (hne : name ≠ "") (hs : ∀ c ∈ name.data, c ≠ '/') :
    Base name = name := by
  have hd : name.data ≠ [] := by
    intro h
    apply hne
    cases name
    simp_all
  have hrev : ∀ c ∈ name.data.reverse, c ≠ '/' := fun c hc => hs c (List.mem_reverse.1 hc)
  have h1 : name.data.reverse.dropWhile (fun c => c == '/') = name.data.reverse := by
    cases hl : name.data.reverse with
    | nil => rfl
    | cons a t =>
      have : a ≠ '/' := hrev a (by rw [hl]; exact List.mem_cons_self _ _)
      have hb : (a == '/') = false := by simpa using this
      simp [List.dropWhile, hb]
  have h2 : name.data.reverse.takeWhile (fun c => c != '/') = name.data.reverse := by
    rw [List.takeWhile_eq_self_iff]
    intro c hc
    simpa using hrev c hc
  unfold Base
  simp only [hne, if_false, h1, h2, List.reverse_reverse, hd]

/-! ## Claims about one repository -/

set_option maxHeartbeats 4000000 in
/-- C4: once the `origin/main` probe has succeeded, `checkout main` is issued,
`origin/master` is not even probed, and every checkout or pull command is for
`main`; whatever `origin/master` would have answered.  Conversely a checkout or
pull for `master` is only issued after the `origin/main` probe failed and the
`origin/master` probe succeeded. -/
theorem main_preferred_over_master (env : Env W) (s : St W) (d : String) :
    ((∃ m ∈ issued env s d, m.args = mainArgs ∧ m.err = none) →
      (∃ c ∈ issued env s d, c.args = checkoutArgs "main") ∧
      (∀ c ∈ issued env s d, c.args ≠ masterArgs) ∧
      (∀ c ∈ issued env s d, c.args.head? = some "checkout" → c.args = checkoutArgs "main") ∧
      (∀ c ∈ issued env s d, c.args.head? = some "pull" → c.args = pullArgs "main")) ∧
    ((∃ c ∈ issued env s d, c.args = checkoutArgs "master" ∨ c.args = pullArgs "master") →
      (∃ m ∈ issued env s d, m.args = mainArgs ∧ m.err ≠ none) ∧
      (∃ m ∈ issued env s d, m.args = masterArgs ∧ m.err = none)) := by
  obtain ⟨fs, mid, last, -, -, -, -, -, -, -, hs⟩ := updateRepo_shape env s d
  generalize issued env s d = cs at *
  generalize (updateRepo env s d).2 = err at *
  rcases hs with _ | ⟨c1, a1, e1⟩ | ⟨c1, c2, c3, ⟨a1, ok1, a2⟩, a3, e3⟩ |
    ⟨c1, c2, c3, c4, t, ⟨a1, ok1, a2⟩, ⟨a3, ok3, o3⟩, a4, e4⟩ |
    ⟨pre, c5, ⟨c1, c2, c3, ⟨a1, ok1, a2⟩,
      (⟨⟨a3, ok3, o3⟩, rfl⟩ | ⟨⟨a3, ok3, o3⟩, c4, t, a4, ok4, rfl⟩)⟩, a5, e5⟩ |
    ⟨pre, c5, c6, c7, ⟨c1, c2, c3, ⟨a1, ok1, a2⟩,
      (⟨⟨a3, ok3, o3⟩, rfl⟩ | ⟨⟨a3, ok3, o3⟩, c4, t, a4, ok4, rfl⟩)⟩, a5, e5, a6, e6, a7, e7⟩ |
    ⟨pre, probes, c5, c8, b, ⟨c1, c2, c3, ⟨a1, ok1, a2⟩,
      (⟨⟨a3, ok3, o3⟩, rfl⟩ | ⟨⟨a3, ok3, o3⟩, c4, t, a4, ok4, rfl⟩)⟩, a5, e5,
      (⟨c6, a6, e6, rfl, rfl⟩ | ⟨c6, c7, a6, e6, a7, e7, rfl, rfl⟩), a8, e8⟩ |
    ⟨pre, probes, c5, c8, c9, b, ⟨c1, c2, c3, ⟨a1, ok1, a2⟩,
      (⟨⟨a3, ok3, o3⟩, rfl⟩ | ⟨⟨a3, ok3, o3⟩, c4, t, a4, ok4, rfl⟩)⟩, a5, e5,
      (⟨c6, a6, e6, rfl, rfl⟩ | ⟨c6, c7, a6, e6, a7, e7, rfl, rfl⟩), a8, e8, a9, e9⟩ |
    ⟨pre, probes, c5, c8, c9, b, ⟨c1, c2, c3, ⟨a1, ok1, a2⟩,
      (⟨⟨a3, ok3, o3⟩, rfl⟩ | ⟨⟨a3, ok3, o3⟩, c4, t, a4, ok4, rfl⟩)⟩, a5, e5,
      (⟨c6, a6, e6, rfl, rfl⟩ | ⟨c6, c7, a6, e6, a7, e7, rfl, rfl⟩), a8, e8, a9, e9⟩
  all_goals simp_all [headArgs, mainArgs, branchArgs, statusArgs, stashArgs, fetchArgs,
    masterArgs, checkoutArgs, pullArgs]

/-- C5: when the `origin/main` probe fails and no `origin/master` probe
succeeds, `updateRepo` returns the error "no main/master branch", appends the
single entry `<name>: No main/master branch` to the failure list, and issues
neither a checkout nor a pull. -/
theorem no_branch_fails (env : Env W) (s : St W) (d : String)
    (hmain : ∃ c ∈ issued env s d, c.args = mainArgs ∧ c.err ≠ none)
    (hmaster : ∀ c ∈ issued env s d, c.args = masterArgs → c.err ≠ none) :
    (updateRepo env s d).2 = some "no main/master branch" ∧
    (updateRepo env s d).1.r.failedRepos =
      s.r.failedRepos ++ [Base d ++ ": No main/master branch"] ∧
    ∀ c ∈ issued env s d, c.args.head? ≠ some "checkout" ∧ c.args.head? ≠ some "pull" := by
  obtain ⟨fs, mid, last, -, h2, -, -, -, -, -, hs⟩ := updateRepo_shape env s d
  rw [h2]
  generalize issued env s d = cs at *
  generalize (updateRepo env s d).2 = err at *
  rcases hs with _ | ⟨c1, a1, e1⟩ | ⟨c1, c2, c3, ⟨a1, ok1, a2⟩, a3, e3⟩ |
    ⟨c1, c2, c3, c4, t, ⟨a1, ok1, a2⟩, ⟨a3, ok3, o3⟩, a4, e4⟩ |
    ⟨pre, c5, ⟨c1, c2, c3, ⟨a1, ok1, a2⟩,
      (⟨⟨a3, ok3, o3⟩, rfl⟩ | ⟨⟨a3, ok3, o3⟩, c4, t, a4, ok4, rfl⟩)⟩, a5, e5⟩ |
    ⟨pre, c5, c6, c7, ⟨c1, c2, c3, ⟨a1, ok1, a2⟩,
      (⟨⟨a3, ok3, o3⟩, rfl⟩ | ⟨⟨a3, ok3, o3⟩, c4, t, a4, ok4, rfl⟩)⟩, a5, e5, a6, e6, a7, e7⟩ |
    ⟨pre, probes, c5, c8, b, ⟨c1, c2, c3, ⟨a1, ok1, a2⟩,
      (⟨⟨a3, ok3, o3⟩, rfl⟩ | ⟨⟨a3, ok3, o3⟩, c4, t, a4, ok4, rfl⟩)⟩, a5, e5,
      (⟨c6, a6, e6, rfl, rfl⟩ | ⟨c6, c7, a6, e6, a7, e7, rfl, rfl⟩), a8, e8⟩ |
    ⟨pre, probes, c5, c8, c9, b, ⟨c1, c2, c3, ⟨a1, ok1, a2⟩,
      (⟨⟨a3, ok3, o3⟩, rfl⟩ | ⟨⟨a3, ok3, o3⟩, c4, t, a4, ok4, rfl⟩)⟩, a5, e5,
      (⟨c6, a6, e6, rfl, rfl⟩ | ⟨c6, c7, a6, e6, a7, e7, rfl, rfl⟩), a8, e8, a9, e9⟩ |
    ⟨pre, probes, c5, c8, c9, b, ⟨c1, c2, c3, ⟨a1, ok1, a2⟩,
      (⟨⟨a3, ok3, o3⟩, rfl⟩ | ⟨⟨a3, ok3, o3⟩, c4, t, a4, ok4, rfl⟩)⟩, a5, e5,
      (⟨c6, a6, e6, rfl, rfl⟩ | ⟨c6, c7, a6, e6, a7, e7, rfl, rfl⟩), a8, e8, a9, e9⟩
  all_goals simp_all [headArgs, mainArgs, branchArgs, statusArgs, stashArgs, fetchArgs,
    masterArgs, checkoutArgs, pullArgs]

set_option linter.unusedTactic false in
/-- C6: when the status query succeeded with output that is not blank, the
commands issued are `pre ++ stash :: post` where `stash` is
`stash push -m "Auto-stash before update <time>"` and `pre` holds no fetch,
checkout or pull; any fetch, checkout or pull was issued after a successful
stash; and when the stash fails nothing follows it, the error is
"failed to stash changes" and one failure entry is appended. -/
theorem stash_before_update (env : Env W) (s : St W) (d : String)
    (hdirty : ∃ c ∈ issued env s d,
      c.args = statusArgs ∧ c.err = none ∧ TrimSpace c.output ≠ "") :
    ∃ pre stash post t,
      issued env s d = pre ++ stash :: post ∧
      stash.args = stashArgs t ∧
      (∀ c ∈ pre, isFetchCheckoutPull c.args = false) ∧
      isFetchCheckoutPull stash.args = false ∧
      ((∃ c ∈ issued env s d, isFetchCheckoutPull c.args = true) → stash.err = none) ∧
      (stash.err ≠ none → post = [] ∧
        (updateRepo env s d).2 = some "failed to stash changes" ∧
        (updateRepo env s d).1.r.failedRepos =
          s.r.failedRepos ++ [Base d ++ ": Failed to stash changes"]) := by
  obtain ⟨fs, mid, last, -, h2, -, -, -, -, -, hs⟩ := updateRepo_shape env s d
  rw [h2]
  generalize issued env s d = cs at *
  generalize (updateRepo env s d).2 = err at *
  rcases hs with _ | ⟨c1, a1, e1⟩ | ⟨c1, c2, c3, ⟨a1, ok1, a2⟩, a3, e3⟩ |
    ⟨c1, c2, c3, c4, t, ⟨a1, ok1, a2⟩, ⟨a3, ok3, o3⟩, a4, e4⟩ |
    ⟨pre, c5, ⟨c1, c2, c3, ⟨a1, ok1, a2⟩,
      (⟨⟨a3, ok3, o3⟩, rfl⟩ | ⟨⟨a3, ok3, o3⟩, c4, t, a4, ok4, rfl⟩)⟩, a5, e5⟩ |
    ⟨pre, c5, c6, c7, ⟨c1, c2, c3, ⟨a1, ok1, a2⟩,
      (⟨⟨a3, ok3, o3⟩, rfl⟩ | ⟨⟨a3, ok3, o3⟩, c4, t, a4, ok4, rfl⟩)⟩, a5, e5, a6, e6, a7, e7⟩ |
    ⟨pre, probes, c5, c8, b, ⟨c1, c2, c3, ⟨a1, ok1, a2⟩,
      (⟨⟨a3, ok3, o3⟩, rfl⟩ | ⟨⟨a3, ok3, o3⟩, c4, t, a4, ok4, rfl⟩)⟩, a5, e5,
      (⟨c6, a6, e6, rfl, rfl⟩ | ⟨c6, c7, a6, e6, a7, e7, rfl, rfl⟩), a8, e8⟩ |
    ⟨pre, probes, c5, c8, c9, b, ⟨c1, c2, c3, ⟨a1, ok1, a2⟩,
      (⟨⟨a3, ok3, o3⟩, rfl⟩ | ⟨⟨a3, ok3, o3⟩, c4, t, a4, ok4, rfl⟩)⟩, a5, e5,
      (⟨c6, a6, e6, rfl, rfl⟩ | ⟨c6, c7, a6, e6, a7, e7, rfl, rfl⟩), a8, e8, a9, e9⟩ |
    ⟨pre, probes, c5, c8, c9, b, ⟨c1, c2, c3, ⟨a1, ok1, a2⟩,
      (⟨⟨a3, ok3, o3⟩, rfl⟩ | ⟨⟨a3, ok3, o3⟩, c4, t, a4, ok4, rfl⟩)⟩, a5, e5,
      (⟨c6, a6, e6, rfl, rfl⟩ | ⟨c6, c7, a6, e6, a7, e7, rfl, rfl⟩), a8, e8, a9, e9⟩
  all_goals first
    | (exfalso; simp_all [headArgs, mainArgs, branchArgs, statusArgs, stashArgs, fetchArgs,
    masterArgs, checkoutArgs, pullArgs]; done)
    | (refine ⟨[c1, c2, c3], c4, _, t, rfl, a4, ?_, ?_, ?_, ?_⟩ <;>
        (simp_all [isFetchCheckoutPull, headArgs, mainArgs, branchArgs, statusArgs, stashArgs, fetchArgs,
    masterArgs, checkoutArgs, pullArgs]; done))

theorem Shape.of_nil {name : String} {fs : List String} {last : LogRecord} {err : Error}
    (h : Shape name [] fs last err) :
    fs = [] ∧ last = nameLine .info "SKIP: not a git repository" name ∧ err = none := by
  generalize hcs : ([] : List GitCall) = cs at h
  cases h
  case notGit => exact ⟨rfl, rfl, rfl⟩
  all_goals (exfalso; simp at hcs)

/-- C7: a directory whose `.git` does not exist is skipped: `updateRepo`
returns `nil`, starts no git process, leaves the failure list and the outside
world as they were, and the call classifies as `Skipped`. -/
theorem no_git_is_skipped (env : Env W) (s : St W) (d : String)
    (h : env.stat s.w (env.joinPath d ".git") = .notExist) :
    (updateRepo env s d).2 = none ∧
    issued env s d = [] ∧
    (updateRepo env s d).1.calls = s.calls ∧
    (updateRepo env s d).1.r.failedRepos = s.r.failedRepos ∧
    (updateRepo env s d).1.w = s.w ∧
    (invocationOf env s d).outcome = .Skipped "not a git repository" := by
  obtain ⟨fs, mid, last, h1, h2, h3, -, -, h6, h7, hs⟩ := updateRepo_shape env s d
  have hnil : issued env s d = [] := h6.1 (by rw [h]; rfl)
  rw [hnil] at hs h1
  obtain ⟨rfl, rfl, herr⟩ := hs.of_nil
  have hlogs : (invocationOf env s d).logs =
      mid ++ [nameLine .info "SKIP: not a git repository" (Base d)] := by
    show List.drop _ (updateRepo env s d).1.r.logger = _
    rw [h3, List.drop_left]
  refine ⟨herr, hnil, by simpa using h1, by simpa using h2, h7 hnil, ?_⟩
  unfold Invocation.outcome
  rw [hlogs]
  have he : (invocationOf env s d).err = none := herr
  rw [he]
  simp [nameLine]

set_option linter.unusedTactic false in
set_option maxHeartbeats 4000000 in
/-- C10: the commands issued for one repository are a prefix of the fixed
order, where the stash is part of the order exactly when the status query
succeeded with output that is not blank and the `origin/master` probe exactly
when the `origin/main` probe failed; every command before the last one either
succeeded or is the current-branch probe or the `origin/main` probe, and when
no command failed apart from those two the whole order is run (unless there is
no `.git`, when nothing is run); no command is issued twice; and when the
has-commits check fails no fetch is issued. -/
theorem commands_follow_fixed_order (env : Env W) (s : St W) (d : String) :
    (∃ stash viaMaster,
      (issued env s d).map (fun c => c.args) <+:
        fixedOrder stash viaMaster (if viaMaster = true then "master" else "main") ∧
      (stash ≠ none ↔ ∃ c ∈ issued env s d,
        c.args = statusArgs ∧ c.err = none ∧ TrimSpace c.output ≠ "") ∧
      (viaMaster = true ↔ ∃ c ∈ issued env s d, c.args = mainArgs ∧ c.err ≠ none) ∧
      ((∀ c ∈ issued env s d, c.err = none ∨ isProbe c = true) →
        issued env s d = [] ∨
        (issued env s d).map (fun c => c.args) =
          fixedOrder stash viaMaster (if viaMaster = true then "master" else "main"))) ∧
    (∀ c ∈ (issued env s d).dropLast, c.err = none ∨ isProbe c = true) ∧
    (issued env s d = [] ↔ IsNotExist (env.stat s.w (env.joinPath d ".git")) = true) ∧
    ((issued env s d).map (fun c => c.args)).Nodup ∧
    ((∃ c ∈ issued env s d, c.args = headArgs ∧ c.err ≠ none) →
      ∀ c ∈ issued env s d, c.args ≠ fetchArgs) := by
  obtain ⟨fs, mid, last, -, -, -, -, -, h6, -, hs⟩ := updateRepo_shape env s d
  refine ⟨?_, ?_, h6.symm, ?_, ?_⟩
  all_goals clear h6
  all_goals generalize issued env s d = cs at *
  all_goals generalize (updateRepo env s d).2 = err at *
  · -- the prefix of the fixed order
    rcases hs with _ | ⟨c1, a1, e1⟩ | ⟨c1, c2, c3, ⟨a1, ok1, a2⟩, a3, e3⟩ |
      ⟨c1, c2, c3, c4, t, ⟨a1, ok1, a2⟩, ⟨a3, ok3, o3⟩, a4, e4⟩ |
      ⟨pre, c5, ⟨c1, c2, c3, ⟨a1, ok1, a2⟩,
        (⟨⟨a3, ok3, o3⟩, rfl⟩ | ⟨⟨a3, ok3, o3⟩, c4, t, a4, ok4, rfl⟩)⟩, a5, e5⟩ |
      ⟨pre, c5, c6, c7, ⟨c1, c2, c3, ⟨a1, ok1, a2⟩,
        (⟨⟨a3, ok3, o3⟩, rfl⟩ | ⟨⟨a3, ok3, o3⟩, c4, t, a4, ok4, rfl⟩)⟩, a5, e5, a6, e6, a7, e7⟩ |
      ⟨pre, probes, c5, c8, b, ⟨c1, c2, c3, ⟨a1, ok1, a2⟩,
        (⟨⟨a3, ok3, o3⟩, rfl⟩ | ⟨⟨a3, ok3, o3⟩, c4, t, a4, ok4, rfl⟩)⟩, a5, e5,
        (⟨c6, a6, e6, rfl, rfl⟩ | ⟨c6, c7, a6, e6, a7, e7, rfl, rfl⟩), a8, e8⟩ |
      ⟨pre, probes, c5, c8, c9, b, ⟨c1, c2, c3, ⟨a1, ok1, a2⟩,
        (⟨⟨a3, ok3, o3⟩, rfl⟩ | ⟨⟨a3, ok3, o3⟩, c4, t, a4, ok4, rfl⟩)⟩, a5, e5,
        (⟨c6, a6, e6, rfl, rfl⟩ | ⟨c6, c7, a6, e6, a7, e7, rfl, rfl⟩), a8, e8, a9, e9⟩ |
      ⟨pre, probes, c5, c8, c9, b, ⟨c1, c2, c3, ⟨a1, ok1, a2⟩,
        (⟨⟨a3, ok3, o3⟩, rfl⟩ | ⟨⟨a3, ok3, o3⟩, c4, t, a4, ok4, rfl⟩)⟩, a5, e5,
        (⟨c6, a6, e6, rfl, rfl⟩ | ⟨c6, c7, a6, e6, a7, e7, rfl, rfl⟩), a8, e8, a9, e9⟩
    all_goals first
      | (refine ⟨none, false, ?_, ?_, ?_, ?_⟩ <;>
          (simp_all [fixedOrder, isProbe, headArgs, mainArgs, branchArgs, statusArgs, stashArgs, fetchArgs,
    masterArgs, checkoutArgs, pullArgs]; done))
      | (refine ⟨none, true, ?_, ?_, ?_, ?_⟩ <;>
          (simp_all [fixedOrder, isProbe, headArgs, mainArgs, branchArgs, statusArgs, stashArgs, fetchArgs,
    masterArgs, checkoutArgs, pullArgs]; done))
      | (refine ⟨some t, false, ?_, ?_, ?_, ?_⟩ <;>
          (simp_all [fixedOrder, isProbe, headArgs, mainArgs, branchArgs, statusArgs, stashArgs, fetchArgs,
    masterArgs, checkoutArgs, pullArgs]; done))
      | (refine ⟨some t, true, ?_, ?_, ?_, ?_⟩ <;>
          (simp_all [fixedOrder, isProbe, headArgs, mainArgs, branchArgs, statusArgs, stashArgs, fetchArgs,
    masterArgs, checkoutArgs, pullArgs]; done))
  · -- every command but the last succeeded or is a probe
    rcases hs with _ | ⟨c1, a1, e1⟩ | ⟨c1, c2, c3, ⟨a1, ok1, a2⟩, a3, e3⟩ |
      ⟨c1, c2, c3, c4, t, ⟨a1, ok1, a2⟩, ⟨a3, ok3, o3⟩, a4, e4⟩ |
      ⟨pre, c5, ⟨c1, c2, c3, ⟨a1, ok1, a2⟩,
        (⟨⟨a3, ok3, o3⟩, rfl⟩ | ⟨⟨a3, ok3, o3⟩, c4, t, a4, ok4, rfl⟩)⟩, a5, e5⟩ |
      ⟨pre, c5, c6, c7, ⟨c1, c2, c3, ⟨a1, ok1, a2⟩,
        (⟨⟨a3, ok3, o3⟩, rfl⟩ | ⟨⟨a3, ok3, o3⟩, c4, t, a4, ok4, rfl⟩)⟩, a5, e5, a6, e6, a7, e7⟩ |
      ⟨pre, probes, c5, c8, b, ⟨c1, c2, c3, ⟨a1, ok1, a2⟩,
        (⟨⟨a3, ok3, o3⟩, rfl⟩ | ⟨⟨a3, ok3, o3⟩, c4, t, a4, ok4, rfl⟩)⟩, a5, e5,
        (⟨c6, a6, e6, rfl, rfl⟩ | ⟨c6, c7, a6, e6, a7, e7, rfl, rfl⟩), a8, e8⟩ |
      ⟨pre, probes, c5, c8, c9, b, ⟨c1, c2, c3, ⟨a1, ok1, a2⟩,
        (⟨⟨a3, ok3, o3⟩, rfl⟩ | ⟨⟨a3, ok3, o3⟩, c4, t, a4, ok4, rfl⟩)⟩, a5, e5,
        (⟨c6, a6, e6, rfl, rfl⟩ | ⟨c6, c7, a6, e6, a7, e7, rfl, rfl⟩), a8, e8, a9, e9⟩ |
      ⟨pre, probes, c5, c8, c9, b, ⟨c1, c2, c3, ⟨a1, ok1, a2⟩,
        (⟨⟨a3, ok3, o3⟩, rfl⟩ | ⟨⟨a3, ok3, o3⟩, c4, t, a4, ok4, rfl⟩)⟩, a5, e5,
        (⟨c6, a6, e6, rfl, rfl⟩ | ⟨c6, c7, a6, e6, a7, e7, rfl, rfl⟩), a8, e8, a9, e9⟩
    all_goals simp_all [isProbe, headArgs, mainArgs, branchArgs, statusArgs, stashArgs, fetchArgs,
    masterArgs, checkoutArgs, pullArgs]
  · -- no command twice
    rcases hs with _ | ⟨c1, a1, e1⟩ | ⟨c1, c2, c3, ⟨a1, ok1, a2⟩, a3, e3⟩ |
      ⟨c1, c2, c3, c4, t, ⟨a1, ok1, a2⟩, ⟨a3, ok3, o3⟩, a4, e4⟩ |
      ⟨pre, c5, ⟨c1, c2, c3, ⟨a1, ok1, a2⟩,
        (⟨⟨a3, ok3, o3⟩, rfl⟩ | ⟨⟨a3, ok3, o3⟩, c4, t, a4, ok4, rfl⟩)⟩, a5, e5⟩ |
      ⟨pre, c5, c6, c7, ⟨c1, c2, c3, ⟨a1, ok1, a2⟩,
        (⟨⟨a3, ok3, o3⟩, rfl⟩ | ⟨⟨a3, ok3, o3⟩, c4, t, a4, ok4, rfl⟩)⟩, a5, e5, a6, e6, a7, e7⟩ |
      ⟨pre, probes, c5, c8, b, ⟨c1, c2, c3, ⟨a1, ok1, a2⟩,
        (⟨⟨a3, ok3, o3⟩, rfl⟩ | ⟨⟨a3, ok3, o3⟩, c4, t, a4, ok4, rfl⟩)⟩, a5, e5,
        (⟨c6, a6, e6, rfl, rfl⟩ | ⟨c6, c7, a6, e6, a7, e7, rfl, rfl⟩), a8, e8⟩ |
      ⟨pre, probes, c5, c8, c9, b, ⟨c1, c2, c3, ⟨a1, ok1, a2⟩,
        (⟨⟨a3, ok3, o3⟩, rfl⟩ | ⟨⟨a3, ok3, o3⟩, c4, t, a4, ok4, rfl⟩)⟩, a5, e5,
        (⟨c6, a6, e6, rfl, rfl⟩ | ⟨c6, c7, a6, e6, a7, e7, rfl, rfl⟩), a8, e8, a9, e9⟩ |
      ⟨pre, probes, c5, c8, c9, b, ⟨c1, c2, c3, ⟨a1, ok1, a2⟩,
        (⟨⟨a3, ok3, o3⟩, rfl⟩ | ⟨⟨a3, ok3, o3⟩, c4, t, a4, ok4, rfl⟩)⟩, a5, e5,
        (⟨c6, a6, e6, rfl, rfl⟩ | ⟨c6, c7, a6, e6, a7, e7, rfl, rfl⟩), a8, e8, a9, e9⟩
    all_goals simp_all [headArgs, mainArgs, branchArgs, statusArgs, stashArgs, fetchArgs,
    masterArgs, checkoutArgs, pullArgs]
  · -- no fetch without commits
    rcases hs with _ | ⟨c1, a1, e1⟩ | ⟨c1, c2, c3, ⟨a1, ok1, a2⟩, a3, e3⟩ |
      ⟨c1, c2, c3, c4, t, ⟨a1, ok1, a2⟩, ⟨a3, ok3, o3⟩, a4, e4⟩ |
      ⟨pre, c5, ⟨c1, c2, c3, ⟨a1, ok1, a2⟩,
        (⟨⟨a3, ok3, o3⟩, rfl⟩ | ⟨⟨a3, ok3, o3⟩, c4, t, a4, ok4, rfl⟩)⟩, a5, e5⟩ |
      ⟨pre, c5, c6, c7, ⟨c1, c2, c3, ⟨a1, ok1, a2⟩,
        (⟨⟨a3, ok3, o3⟩, rfl⟩ | ⟨⟨a3, ok3, o3⟩, c4, t, a4, ok4, rfl⟩)⟩, a5, e5, a6, e6, a7, e7⟩ |
      ⟨pre, probes, c5, c8, b, ⟨c1, c2, c3, ⟨a1, ok1, a2⟩,
        (⟨⟨a3, ok3, o3⟩, rfl⟩ | ⟨⟨a3, ok3, o3⟩, c4, t, a4, ok4, rfl⟩)⟩, a5, e5,
        (⟨c6, a6, e6, rfl, rfl⟩ | ⟨c6, c7, a6, e6, a7, e7, rfl, rfl⟩), a8, e8⟩ |
      ⟨pre, probes, c5, c8, c9, b, ⟨c1, c2, c3, ⟨a1, ok1, a2⟩,
        (⟨⟨a3, ok3, o3⟩, rfl⟩ | ⟨⟨a3, ok3, o3⟩, c4, t, a4, ok4, rfl⟩)⟩, a5, e5,
        (⟨c6, a6, e6, rfl, rfl⟩ | ⟨c6, c7, a6, e6, a7, e7, rfl, rfl⟩), a8, e8, a9, e9⟩ |
      ⟨pre, probes, c5, c8, c9, b, ⟨c1, c2, c3, ⟨a1, ok1, a2⟩,
        (⟨⟨a3, ok3, o3⟩, rfl⟩ | ⟨⟨a3, ok3, o3⟩, c4, t, a4, ok4, rfl⟩)⟩, a5, e5,
        (⟨c6, a6, e6, rfl, rfl⟩ | ⟨c6, c7, a6, e6, a7, e7, rfl, rfl⟩), a8, e8, a9, e9⟩
    all_goals simp_all [headArgs, mainArgs, branchArgs, statusArgs, stashArgs, fetchArgs,
    masterArgs, checkoutArgs, pullArgs]

/-! ## Claims about a whole run -/

theorem outcome_failed_err {inv : Invocation} {reason : String}
    (h : inv.outcome = .Failed reason) : inv.err = some reason := by
  unfold Invocation.outcome at h
  cases he : inv.err with
  | some e =>
    rw [he] at h
    simp only [Outcome.Failed.injEq] at h
    rw [h]
  | none =>
    rw [he] at h
    exfalso
    revert h
    dsimp only
    split
    · simp
    · split_ifs <;> simp

/-- C1: when the base directory can be entered, its listing can be read and no
restoration fails, `Run` on a new updater returns an error exactly when some
call of `updateRepo` ended `Failed`, which is exactly when the failure list is
not empty; and a `Failed` call failed for one of the reasons of `updateRepo`
(status, stash, fetch, branch resolution, checkout, pull). -/
theorem run_fails_iff_repo_failed (env : Env W) (version baseDir : String) (w : W)
    (hcd : (env.chdir w baseDir).2 = none)
    (hls : (env.readDir (env.chdir w baseDir).1).2 = none)
    (hrest : (Run env (fresh version baseDir w)).err ≠ some "cannot return to base directory") :
    ((Run env (fresh version baseDir w)).err ≠ none ↔
      ∃ inv ∈ (Run env (fresh version baseDir w)).history, inv.outcome.isFailed = true) ∧
    ((Run env (fresh version baseDir w)).err ≠ none ↔
      (Run env (fresh version baseDir w)).s.r.failedRepos ≠ []) ∧
    (∀ inv ∈ (Run env (fresh version baseDir w)).history, ∀ reason,
      inv.outcome = .Failed reason → reason ∈ failureReasons) := by
  obtain ⟨hsum, hrun⟩ := Run_summary env (fresh version baseDir w)
  obtain ⟨hiff, -, -⟩ := hrun (hsum.2 ⟨hcd, hls, hrest⟩)
  obtain ⟨hall, -, -, hreasons⟩ := Run_spec env (fresh version baseDir w) rfl
  refine ⟨?_, hiff, fun inv hinv reason h => hreasons inv hinv reason (outcome_failed_err h)⟩
  rw [hiff]
  have hlen := hall.length_eq
  constructor
  · intro hne
    have hpos : 0 < ((Run env (fresh version baseDir w)).history.filter
        (fun inv => decide (inv.err ≠ none))).length := by
      rw [← hlen]; exact List.length_pos.2 hne
    obtain ⟨inv, hmem⟩ := List.exists_mem_of_length_pos hpos
    rw [List.mem_filter] at hmem
    exact ⟨inv, hmem.1, (outcome_isFailed inv).2 (of_decide_eq_true hmem.2)⟩
  · rintro ⟨inv, hinv, hfail⟩ hnil
    have hmem : inv ∈ (Run env (fresh version baseDir w)).history.filter
        (fun inv => decide (inv.err ≠ none)) :=
      List.mem_filter.2 ⟨hinv, decide_eq_true ((outcome_isFailed inv).1 hfail)⟩
    rw [hnil, List.length_nil] at hlen
    rw [List.length_eq_zero.1 hlen.symm] at hmem
    cases hmem

/-- C2, as the program has it: when `Run` on a new updater reaches its summary,
`processed = successful + len(failedRepos)`; `successful` counts every call of
`updateRepo` that returned `nil`, the `Skipped` ones as well as the `Succeeded`
ones. -/
theorem processed_eq_successful_add_failed (env : Env W) (version baseDir : String) (w : W)
    (hsum : (Run env (fresh version baseDir w)).summary = true) :
    (Run env (fresh version baseDir w)).processed =
      (Run env (fresh version baseDir w)).successful +
        (Run env (fresh version baseDir w)).s.r.failedRepos.length ∧
    (Run env (fresh version baseDir w)).successful =
      (Run env (fresh version baseDir w)).succeededCount +
        (Run env (fresh version baseDir w)).skippedCount ∧
    (Run env (fresh version baseDir w)).s.r.failedRepos.length =
      (Run env (fresh version baseDir w)).failedCount := by
  have _ := hsum
  obtain ⟨hall, hp, hs, -⟩ := Run_spec env (fresh version baseDir w) rfl
  have hlen := hall.length_eq
  have hpart := List.length_eq_countP_add_countP (fun inv : Invocation => decide (inv.err = none))
    (Run env (fresh version baseDir w)).history
  have hfilter : ((Run env (fresh version baseDir w)).history.filter
      (fun inv => decide (inv.err ≠ none))).length =
      (Run env (fresh version baseDir w)).history.countP
        (fun inv => ¬ decide (inv.err = none)) := by
    rw [List.countP_eq_length_filter]
    congr 2
    funext inv
    simp
  refine ⟨by omega, ?_, ?_⟩
  · rw [hs, countP_nil_eq]; rfl
  · rw [hlen, RunResult.failedCount, List.countP_eq_length_filter, filter_failed_eq]

/-- C3: when the base directory can be entered, its listing `entries` can be
read and no restoration fails, `Run` calls `updateRepo` once for each entry
that is a directory, in listing order, whatever the calls return; `processed`
ends as the number of directory entries; every git process of the run was
started for a directory entry; and the summary is reached. -/
theorem every_directory_updated_once (env : Env W) (version baseDir : String) (w : W)
    (entries : List DirEntry)
    (hcd : (env.chdir w baseDir).2 = none)
    (hls : env.readDir (env.chdir w baseDir).1 = (entries, none))
    (hrest : (Run env (fresh version baseDir w)).err ≠ some "cannot return to base directory") :
    (Run env (fresh version baseDir w)).history.map (fun inv => inv.name) =
      (entries.filter (fun e => e.isDir)).map (fun e => e.name) ∧
    (Run env (fresh version baseDir w)).processed = (entries.filter (fun e => e.isDir)).length ∧
    (∀ c ∈ (Run env (fresh version baseDir w)).s.calls,
      ∃ e ∈ entries, e.isDir = true ∧ c.dir = e.name) ∧
    (Run env (fresh version baseDir w)).summary = true := by
  obtain ⟨hsum, hrun⟩ := Run_summary env (fresh version baseDir w)
  have hs : (Run env (fresh version baseDir w)).summary = true :=
    hsum.2 ⟨hcd, by show (env.readDir (env.chdir w baseDir).1).2 = none; rw [hls], hrest⟩
  obtain ⟨-, hnames, hcalls⟩ := hrun hs
  obtain ⟨-, hp, -, -⟩ := Run_spec env (fresh version baseDir w) rfl
  have hnames2 : (Run env (fresh version baseDir w)).history.map (fun inv => inv.name) =
      (entries.filter (fun e => e.isDir)).map (fun e => e.name) := by
    rw [hnames]
    show List.map _ (List.filter _ (env.readDir (env.chdir w baseDir).1).1) = _
    rw [hls]
  refine ⟨hnames2, ?_, ?_, hs⟩
  · rw [hp, ← List.length_map (Run env (fresh version baseDir w)).history (fun inv => inv.name),
      hnames2, List.length_map]
  · intro c hc
    rcases hcalls c hc with h | h
    · cases h
    · have h2 : ∃ e ∈ (env.readDir (env.chdir w baseDir).1).1, e.isDir = true ∧ c.dir = e.name := h
      rw [hls] at h2
      exact h2

/-- C9: on a new updater the failure list lines up, entry by entry and in
order, with the calls of `updateRepo` that ended `Failed`: each entry is the
repository name of its call followed by `": "` and a reason, and calls that
ended `Skipped` or `Succeeded` have no entry.  This holds at the end of `Run`
however it ends, and after the loop of `Run` has worked on any listing. -/
theorem failure_list_tracks_failed (env : Env W) (version baseDir : String) (w : W) :
    (List.Forall₂ failureLine (Run env (fresh version baseDir w)).s.r.failedRepos
        ((Run env (fresh version baseDir w)).history.filter (fun inv => inv.outcome.isFailed)) ∧
      (Run env (fresh version baseDir w)).s.r.failedRepos.length =
        (Run env (fresh version baseDir w)).failedCount) ∧
    (∀ entries : List DirEntry,
      List.Forall₂ failureLine
        (runLoop env ⟨fresh version baseDir w, 0, 0, []⟩ entries).1.s.r.failedRepos
        ((runLoop env ⟨fresh version baseDir w, 0, 0, []⟩ entries).1.history.filter
          (fun inv => inv.outcome.isFailed))) := by
  obtain ⟨hall, -, -, -⟩ := Run_spec env (fresh version baseDir w) rfl
  refine ⟨⟨?_, ?_⟩, ?_⟩
  · rw [filter_failed_eq]; exact hall
  · rw [hall.length_eq, RunResult.failedCount, List.countP_eq_length_filter, filter_failed_eq]
  · intro entries
    obtain ⟨new, fss, r1, -, -, r4, r5, -, -, -, -⟩ :=
      runLoop_spec env entries ⟨fresh version baseDir w, 0, 0, []⟩
    rw [filter_failed_eq, r1, r4]
    exact r5

/-! ## The claims on concrete inputs -/

/-- C1 on `demoTree`: two of the six directories fail, and `Run` returns an
error. -/
theorem run_fails_iff_repo_failed_witness :
    ((simEnv demoGit).chdir demoTree "/base").2 = none ∧
    ((simEnv demoGit).readDir ((simEnv demoGit).chdir demoTree "/base").1).2 = none ∧
    (Run (simEnv demoGit) (fresh "0.0.1" "/base" demoTree)).err =
      some "some repositories failed to update" ∧
    (Run (simEnv demoGit) (fresh "0.0.1" "/base" demoTree)).s.r.failedRepos =
      ["brokenRemote: Failed to fetch", "orphan: No main/master branch"] ∧
    ∃ inv ∈ (Run (simEnv demoGit) (fresh "0.0.1" "/base" demoTree)).history,
      inv.outcome.isFailed = true :=
  ⟨by decide, by decide, by decide, by decide,
    (run_fails_iff_repo_failed (simEnv demoGit) "0.0.1" "/base" demoTree
      (by decide) (by decide) (by decide)).1.1 (by decide)⟩

/-- C2 as stated fails: with one plain directory in the base directory the
summary is reached with `processed = 1`, `successful = 1`, an empty failure
list and one `Skipped` directory, and `1 ≠ 1 + 0 + 1`. -/
theorem skipped_counted_as_successful :
    (Run (simEnv okAll) (fresh "0.0.1" "/base" plainTree)).summary = true ∧
    (Run (simEnv okAll) (fresh "0.0.1" "/base" plainTree)).history.map (fun inv => inv.outcome) =
      [.Skipped "not a git repository"] ∧
    (Run (simEnv okAll) (fresh "0.0.1" "/base" plainTree)).processed = 1 ∧
    (Run (simEnv okAll) (fresh "0.0.1" "/base" plainTree)).successful = 1 ∧
    (Run (simEnv okAll) (fresh "0.0.1" "/base" plainTree)).s.r.failedRepos = [] ∧
    (Run (simEnv okAll) (fresh "0.0.1" "/base" plainTree)).skippedCount = 1 ∧
    ¬ ((Run (simEnv okAll) (fresh "0.0.1" "/base" plainTree)).processed =
      (Run (simEnv okAll) (fresh "0.0.1" "/base" plainTree)).successful +
        (Run (simEnv okAll) (fresh "0.0.1" "/base" plainTree)).s.r.failedRepos.length +
        (Run (simEnv okAll) (fresh "0.0.1" "/base" plainTree)).skippedCount) := by
  decide

/-- C2 as amended on `demoTree`: six directories, four returned `nil` (two
of them skipped), two failed. -/
theorem processed_eq_successful_add_failed_witness :
    (Run (simEnv demoGit) (fresh "0.0.1" "/base" demoTree)).summary = true ∧
    (Run (simEnv demoGit) (fresh "0.0.1" "/base" demoTree)).skippedCount = 2 ∧
    (Run (simEnv demoGit) (fresh "0.0.1" "/base" demoTree)).processed =
      (Run (simEnv demoGit) (fresh "0.0.1" "/base" demoTree)).successful +
        (Run (simEnv demoGit) (fresh "0.0.1" "/base" demoTree)).s.r.failedRepos.length :=
  ⟨by decide, by decide,
    (processed_eq_successful_add_failed (simEnv demoGit) "0.0.1" "/base" demoTree
      (by decide)).1⟩

/-- C3 on `demoTree`: the file `notes.txt` is passed over, the six directories
are updated in listing order, although `brokenRemote` fails in the middle. -/
theorem every_directory_updated_once_witness :
    (Run (simEnv demoGit) (fresh "0.0.1" "/base" demoTree)).history.map (fun inv => inv.name) =
      ["plainDir", "repoA", "brokenRemote", "repoB", "emptyRepo", "orphan"] ∧
    (Run (simEnv demoGit) (fresh "0.0.1" "/base" demoTree)).processed = 6 :=
  ⟨(every_directory_updated_once (simEnv demoGit) "0.0.1" "/base" demoTree
      [⟨"plainDir", true⟩, ⟨"notes.txt", false⟩, ⟨"repoA", true⟩, ⟨"brokenRemote", true⟩,
        ⟨"repoB", true⟩, ⟨"emptyRepo", true⟩, ⟨"orphan", true⟩]
      (by decide) (by decide) (by decide)).1,
    (every_directory_updated_once (simEnv demoGit) "0.0.1" "/base" demoTree
      [⟨"plainDir", true⟩, ⟨"notes.txt", false⟩, ⟨"repoA", true⟩, ⟨"brokenRemote", true⟩,
        ⟨"repoB", true⟩, ⟨"emptyRepo", true⟩, ⟨"orphan", true⟩]
      (by decide) (by decide) (by decide)).2.1⟩

/-- C4 on `demoTree`: `repoA` has both `origin/main` and `origin/master` and is
updated on `main`; `repoB` has only `origin/master` and is updated on
`master`. -/
theorem main_preferred_over_master_witness :
    ((demoGit "repoA" mainArgs).err = none ∧ (demoGit "repoA" masterArgs).err = none ∧
      (∃ c ∈ issued (simEnv demoGit) demoState "repoA", c.args = checkoutArgs "main") ∧
      (∀ c ∈ issued (simEnv demoGit) demoState "repoA", c.args ≠ masterArgs)) ∧
    ((∃ m ∈ issued (simEnv demoGit) demoState "repoB", m.args = mainArgs ∧ m.err ≠ none) ∧
      (∃ m ∈ issued (simEnv demoGit) demoState "repoB", m.args = masterArgs ∧ m.err = none)) :=
  ⟨⟨by decide, by decide,
      ((main_preferred_over_master (simEnv demoGit) demoState "repoA").1 (by decide)).1,
      ((main_preferred_over_master (simEnv demoGit) demoState "repoA").1 (by decide)).2.1⟩,
    (main_preferred_over_master (simEnv demoGit) demoState "repoB").2 (by decide)⟩

/-- C5 on `demoTree`: `orphan` has neither branch. -/
theorem no_branch_fails_witness :
    (updateRepo (simEnv demoGit) demoState "orphan").2 = some "no main/master branch" ∧
    (updateRepo (simEnv demoGit) demoState "orphan").1.r.failedRepos =
      demoState.r.failedRepos ++ [Base "orphan" ++ ": No main/master branch"] ∧
    ∀ c ∈ issued (simEnv demoGit) demoState "orphan",
      c.args.head? ≠ some "checkout" ∧ c.args.head? ≠ some "pull" :=
  no_branch_fails (simEnv demoGit) demoState "orphan" (by decide) (by decide)

/-- C6 on a dirty checkout whose stash fails: the stash is the last command. -/
theorem stash_before_update_witness :
    ∃ pre stash post t,
      issued (simEnv stashFails) demoState "repoA" = pre ++ stash :: post ∧
      stash.args = stashArgs t ∧
      (∀ c ∈ pre, isFetchCheckoutPull c.args = false) ∧
      isFetchCheckoutPull stash.args = false ∧
      ((∃ c ∈ issued (simEnv stashFails) demoState "repoA",
        isFetchCheckoutPull c.args = true) → stash.err = none) ∧
      (stash.err ≠ none → post = [] ∧
        (updateRepo (simEnv stashFails) demoState "repoA").2 = some "failed to stash changes" ∧
        (updateRepo (simEnv stashFails) demoState "repoA").1.r.failedRepos =
          demoState.r.failedRepos ++ [Base "repoA" ++ ": Failed to stash changes"]) :=
  stash_before_update (simEnv stashFails) demoState "repoA" (by decide)

/-- C7 on `demoTree`: `plainDir` has no `.git`. -/
theorem no_git_is_skipped_witness :
    (simEnv demoGit).stat demoState.w ((simEnv demoGit).joinPath "plainDir" ".git") = .notExist ∧
    (updateRepo (simEnv demoGit) demoState "plainDir").2 = none ∧
    issued (simEnv demoGit) demoState "plainDir" = [] :=
  ⟨by decide,
    (no_git_is_skipped (simEnv demoGit) demoState "plainDir" (by decide)).1,
    (no_git_is_skipped (simEnv demoGit) demoState "plainDir" (by decide)).2.1⟩

/-- C8 fails for a relative base directory: started in `/` with base directory
`a`, where `/a` holds a directory `a`, `Run` enters `/a`, processes the one
directory, restores with `os.Chdir("a")`, which succeeds and enters `/a/a`, and
returns `nil` from there.  With the absolute path `/a` it ends in `/a`. -/
theorem relative_base_not_restored :
    ((simEnv okAll).chdir nestedTree "a").1.cwd = ["a"] ∧
    (Run (simEnv okAll) (fresh "0.0.1" "a" nestedTree)).err = none ∧
    (Run (simEnv okAll) (fresh "0.0.1" "a" nestedTree)).summary = true ∧
    (Run (simEnv okAll) (fresh "0.0.1" "a" nestedTree)).processed = 1 ∧
    (Run (simEnv okAll) (fresh "0.0.1" "a" nestedTree)).s.w.cwd = ["a", "a"] ∧
    (Run (simEnv okAll) (fresh "0.0.1" "/a" nestedTree)).s.w.cwd = ["a"] := by
  decide

end UpdateRepos
